import Mathlib

/-!
Shallow embedding of the CityBuf converter `cjseq2cb.py`.

The converter reads a CityJSON sequence (one metadata line, then one feature
per line, already parsed here into the `Dataset` structure), infers an
attribute column schema in a first pass, and in a second pass serializes each
feature into a table, finally framing everything into a byte stream.

Pure functions of the Python source are translated into Lean functions;
fallible code (Python exceptions) is translated into `Except String`; the
flatbuffers builder is treated as the external collaborator it is in the
design: tables are modelled as records of their fields, and the builder's
reverse-prepend vector convention is modelled by `buildVector`.

`attributes.py` (AttributeSchemaEncoder) and `geometry.py` (GeometryEncoder)
are imported by `cjseq2cb.py` but are not part of the sources at hand; they
are modelled from the specification, as marked on each such definition.
-/

set_option maxRecDepth 10000

/-- JSON-ish scalar attribute values as they occur in CityJSON attribute maps.
Structured (object/array) values are kept as an uninterpreted payload since the
converter treats them as an unparsed blob. Numeric reals are modelled as `ℚ`. -/
inductive AttrVal where
  | nullV
  | boolV (b : Bool)
  | intV (i : Int)
  | floatV (q : ℚ)
  | strV (s : String)
  | structV (payload : String)
deriving DecidableEq

/-- CityBuf column types: text, boolean, signed integer, floating point,
structured. -/
inductive ColType where
  | text
  | boolean
  | intType
  | floatType
  | structured
deriving DecidableEq

/-- Python runtime types usable in the `--schema` CLI override map. -/
inductive PyType where
  | pyStr
  | pyInt
  | pyFloat
  | pyBool
  | pyDict
deriving DecidableEq

/-- Column type corresponding to a Python runtime type. -/
def pyToColType : PyType → ColType
  | .pyStr => .text
  | .pyInt => .intType
  | .pyFloat => .floatType
  | .pyBool => .boolean
  | .pyDict => .structured

/-- Modelled from the spec: `attributes.py` is not under src/.  §4.1: the
type inferred from an observed value's runtime kind; a null value does not
establish a type. -/
def inferColType : AttrVal → Option ColType
  | .nullV => none
  | .boolV _ => some .boolean
  | .intV _ => some .intType
  | .floatV _ => some .floatType
  | .strV _ => some .text
  | .structV _ => some .structured

/-- First-match association-list lookup (Python dict access on our ordered
association lists). -/
def lookupStr {α : Type} : List (String × α) → String → Option α
  | [], _ => none
  | kv :: rest, k => if kv.1 = k then some kv.2 else lookupStr rest k

/-- Index of the first entry with the given key (used for the column index an
encoded attribute is tagged with). -/
def indexOfStr {α : Type} : List (String × α) → String → Option Nat
  | [], _ => none
  | kv :: rest, k =>
    if kv.1 = k then some 0
    else (indexOfStr rest k).map (· + 1)

/-- Modelled from the spec: `attributes.py` (AttributeSchemaEncoder) is not
under src/.  It carries the running (later frozen) ordered column schema and
the null-write policy (§4.1, §4.2). -/
structure AttributeSchemaEncoder where
  schema : List (String × ColType)
  write_nulls : Bool
deriving DecidableEq

namespace AttributeSchemaEncoder

/-- Modelled from the spec: §4.1 — explicit user-supplied name-to-type
overrides are seeded before any observation, in their given order. -/
def init (pretyped : List (String × PyType)) (write_nulls : Bool) :
    AttributeSchemaEncoder :=
  { schema := pretyped.map (fun kv => (kv.1, pyToColType kv.2))
    write_nulls := write_nulls }

/-- Modelled from the spec: §4.1 — observing one key/value pair: excluded keys
are skipped, the first-seen type wins, null values do not establish a type;
column order is first-seen order (append at the end). -/
def addEntry (sch : List (String × ColType)) (exclude : List String)
    (kv : String × AttrVal) : List (String × ColType) :=
  if kv.1 ∈ exclude then sch
  else if (lookupStr sch kv.1).isSome then sch
  else
    match inferColType kv.2 with
    | none => sch
    | some t => sch ++ [(kv.1, t)]

/-- Modelled from the spec: §4.1 — `observe` over a whole attribute map
(the source calls it `add`, with an `exclude` keyword). -/
def add (e : AttributeSchemaEncoder) (m : List (String × AttrVal))
    (exclude : List String) : AttributeSchemaEncoder :=
  { e with schema := m.foldl (fun s kv => addEntry s exclude kv) e.schema }

/-- Modelled from the spec: §4.2 — encode one record against the frozen
schema, iterating the record's own keys, skipping excluded keys; a key absent
from the frozen schema is a schema-drift error; a null value emits only the
column-index marker when the null-write policy is on, and is omitted
entirely otherwise.  The buffer is modelled as the list of
(column index, optional value) entries it holds. -/
def encode_values (e : AttributeSchemaEncoder) (m : List (String × AttrVal))
    (exclude : List String) : Except String (List (Nat × Option AttrVal)) :=
  m.foldlM (fun acc kv =>
    if kv.1 ∈ exclude then Except.ok acc
    else
      match indexOfStr e.schema kv.1 with
      | none => Except.error ("schema drift: key not in frozen schema: " ++ kv.1)
      | some i =>
        match kv.2 with
        | AttrVal.nullV =>
          if e.write_nulls then Except.ok (acc ++ [(i, none)]) else Except.ok acc
        | v => Except.ok (acc ++ [(i, some v)])) []

/-- `get_cb_column_type` of the source: the frozen column type of a name. -/
def get_cb_column_type (e : AttributeSchemaEncoder) (k : String) : Option ColType :=
  lookupStr e.schema k

end AttributeSchemaEncoder

/-! ## Geometry flattening (spec-modelled `geometry.py`) -/

/-- Modelled from the spec: `geometry.py` is not under src/.  §4.3 — the
nested boundary array of a geometry; the constructor records the nesting
depth fixed by the geometry's type tag: MultiPoint/MultiLineString descend
ring-to-index, MultiSurface/CompositeSurface add the surface level, Solid the
shell level, MultiSolid/CompositeSolid the solid level. -/
inductive CJBoundaries where
  | multipoint (rings : List (List Nat))
  | multisurface (surfs : List (List (List Nat)))
  | solidB (shells : List (List (List (List Nat))))
  | multisolid (solids : List (List (List (List (List Nat)))))
deriving DecidableEq

/-- Modelled from the spec: `geometry.py` is not under src/.  The flattening
state: flat vertex-index array, per-level run-length arrays, and the
pass-through per-surface semantic-index array (§4.3, §4.4). -/
structure GeometryEncoder where
  indices : List Nat
  strings : List Nat
  surfaces : List Nat
  shells : List Nat
  solids : List Nat
  semantic_values : List (Option Nat)
deriving DecidableEq

namespace GeometryEncoder

def empty : GeometryEncoder := ⟨[], [], [], [], [], []⟩

/-- Modelled from the spec: §4.3 — at each leaf ring every vertex index is
appended to the flat index array and the ring's index count to the
ring-length (strings) array. -/
def encodeRing (e : GeometryEncoder) (r : List Nat) : GeometryEncoder :=
  { e with indices := e.indices ++ r, strings := e.strings ++ [r.length] }

/-- Modelled from the spec: §4.3 — one level up, the number of rings consumed
is appended to the surface-length array. -/
def encodeSurface (e : GeometryEncoder) (s : List (List Nat)) : GeometryEncoder :=
  let e2 := s.foldl encodeRing e
  { e2 with surfaces := e2.surfaces ++ [s.length] }

/-- Modelled from the spec: §4.3 — the number of surfaces is appended to the
shell-length array. -/
def encodeShell (e : GeometryEncoder) (sh : List (List (List Nat))) : GeometryEncoder :=
  let e2 := sh.foldl encodeSurface e
  { e2 with shells := e2.shells ++ [sh.length] }

/-- Modelled from the spec: §4.3 — the number of shells is appended to the
solid-length array. -/
def encodeSolid (e : GeometryEncoder) (so : List (List (List (List Nat)))) :
    GeometryEncoder :=
  let e2 := so.foldl encodeShell e
  { e2 with solids := e2.solids ++ [so.length] }

/-- Modelled from the spec: §4.3 — `encode` descends the nested boundary
array to the depth fixed by the geometry's type; levels not exercised by the
type are never touched. -/
def encode (e : GeometryEncoder) (b : CJBoundaries) : GeometryEncoder :=
  match b with
  | .multipoint rs => rs.foldl encodeRing e
  | .multisurface ss => ss.foldl encodeSurface e
  | .solidB sh => sh.foldl encodeShell e
  | .multisolid so => so.foldl encodeSolid e

/-- Modelled from the spec: §4.4 — the per-surface value-index array from the
input is passed through unchanged. -/
def encode_semantics (e : GeometryEncoder) (vals : List (Option Nat)) :
    GeometryEncoder :=
  { e with semantic_values := vals }

end GeometryEncoder

/-! ## Extents -/

/-- An extended coordinate: a finite value (modelled as `ℚ`) or one of the
two IEEE infinities numpy's `np.inf` provides.  NaN never arises in the
converter's extent arithmetic and is not modelled. -/
inductive XFloat where
  | ninf
  | pinf
  | val (q : ℚ)
deriving DecidableEq

/-- `np.minimum` on non-NaN doubles. -/
def XFloat.fmin : XFloat → XFloat → XFloat
  | .ninf, _ => .ninf
  | _, .ninf => .ninf
  | .pinf, y => y
  | x, .pinf => x
  | .val a, .val b => if a ≤ b then .val a else .val b

/-- `np.maximum` on non-NaN doubles. -/
def XFloat.fmax : XFloat → XFloat → XFloat
  | .pinf, _ => .pinf
  | _, .pinf => .pinf
  | .ninf, y => y
  | x, .ninf => x
  | .val a, .val b => if a ≤ b then .val b else .val a

abbrev Vec3 := XFloat × XFloat × XFloat

/-- A 2x3 bounding box: (min xyz, max xyz). -/
abbrev Extent := Vec3 × Vec3

def vecMin (a b : Vec3) : Vec3 :=
  (XFloat.fmin a.1 b.1, XFloat.fmin a.2.1 b.2.1, XFloat.fmin a.2.2 b.2.2)

def vecMax (a b : Vec3) : Vec3 :=
  (XFloat.fmax a.1 b.1, XFloat.fmax a.2.1 b.2.1, XFloat.fmax a.2.2 b.2.2)

/-- The degenerate seed: min at plus infinity, max at minus infinity. -/
def infSeed : Extent :=
  ((XFloat.pinf, XFloat.pinf, XFloat.pinf), (XFloat.ninf, XFloat.ninf, XFloat.ninf))

/-! ## Input data model (parsed CityJSON sequence) -/

/-- One semantics block of a geometry; both keys are optional in the raw JSON
object, which is exactly what lines 68 and 84 of `cjseq2cb.py` test. -/
structure CJSemantics where
  surfaces : Option (List (List (String × AttrVal)))
  values : Option (List (Option Nat))
deriving DecidableEq

/-- One geometry of a city object.  A semantic surface record is its full
attribute map, including its "type" (and possibly "parent"/"children") keys,
as in the raw JSON. -/
structure CJGeometry where
  gtype : String
  lod : String
  boundaries : CJBoundaries
  semantics : Option CJSemantics
deriving DecidableEq

structure CJObject where
  otype : String
  attributes : Option (List (String × AttrVal))
  geometry : Option (List CJGeometry)
  parents : Option (List String)
  children : Option (List String)
  geographicalExtent : Option Extent
deriving DecidableEq

structure CJFeature where
  id : String
  vertices : List (Int × Int × Int)
  cityObjects : List (String × CJObject)
deriving DecidableEq

/-- The `metadata` sub-object of the first line, when present. -/
structure MetaBlock where
  geographicalExtent : Option Extent
  referenceSystem : Option String
deriving DecidableEq

/-- The first line of the sequence file. -/
structure CJMetadata where
  transform : Option ((ℚ × ℚ × ℚ) × (ℚ × ℚ × ℚ))
  metadata : Option MetaBlock
deriving DecidableEq

/-- One whole parsed input: the metadata line and the feature lines in file
order. -/
structure Dataset where
  meta : CJMetadata
  features : List CJFeature
deriving DecidableEq

/-! ## Enum lookups (spec-modelled generated CityBuf_ modules) -/

/-- Modelled from the spec: the generated `CityBuf_` enum modules are not
under src/.  `getattr(cls, name, None)` maps a member name to its value and
an unknown name to None (§9, reflection-style enum lookup). -/
def GeometryTypeOf (s : String) : Option Nat :=
  lookupStr
    [("MultiPoint", 0), ("MultiLineString", 1), ("MultiSurface", 2),
     ("CompositeSurface", 3), ("Solid", 4), ("MultiSolid", 5),
     ("CompositeSolid", 6)] s

/-- Modelled from the spec: closed enumeration of CityJSON object kinds; the
exact member list is a representative subset, looked up like `getattr`. -/
def CityObjectTypeOf (s : String) : Option Nat :=
  lookupStr
    [("Building", 0), ("BuildingPart", 1), ("BuildingInstallation", 2),
     ("Bridge", 3), ("Road", 4), ("TINRelief", 5), ("WaterBody", 6),
     ("LandUse", 7), ("PlantCover", 8), ("CityFurniture", 9)] s

/-- Modelled from the spec: closed enumeration of semantic surface kinds,
looked up like `getattr`. -/
def SemanticSurfaceTypeOf (s : String) : Option Nat :=
  lookupStr
    [("RoofSurface", 0), ("GroundSurface", 1), ("WallSurface", 2),
     ("ClosureSurface", 3), ("OuterCeilingSurface", 4),
     ("OuterFloorSurface", 5), ("Window", 6), ("Door", 7),
     ("InteriorWallSurface", 8), ("CeilingSurface", 9), ("FloorSurface", 10),
     ("WaterSurface", 11), ("WaterGroundSurface", 12)] s

/-! ## Output tables -/

/-- The flatbuffers builder's vector construction: elements are prepended in
reverse source order, so the finished vector lists them in source order. -/
def buildVector {α : Type} (xs : List α) : List α :=
  xs.reverse.foldl (fun acc x => x :: acc) []

structure SemanticObjectTable where
  stype : Option Nat
  attributes : List (Nat × Option AttrVal)
deriving DecidableEq

structure GeometryTable where
  gtype : Option Nat
  lod : String
  boundaries : List Nat
  solids : Option (List Nat)
  shells : Option (List Nat)
  surfaces : Option (List Nat)
  strings : Option (List Nat)
  semanticsObjects : Option (List SemanticObjectTable)
  semantics : Option (List Nat)
deriving DecidableEq

structure CityObjectTable where
  otype : Option Nat
  id : String
  attributes : Option (List (Nat × Option AttrVal))
  geometry : Option (List GeometryTable)
  children : Option (List String)
  parents : Option (List String)
  geographicalExtent : Option Extent
deriving DecidableEq

structure CityFeatureTable where
  id : String
  vertices : List (Int × Int × Int)
  objects : List CityObjectTable
deriving DecidableEq

structure ReferenceSystemTable where
  authority : String
  version : Int
  code : Int
deriving DecidableEq

structure HeaderTable where
  features_count : Nat
  transform : (ℚ × ℚ × ℚ) × (ℚ × ℚ × ℚ)
  reference_system : Option ReferenceSystemTable
  columns : List (String × ColType)
  geographical_extent : Extent
deriving DecidableEq

/-! ## Small helpers over `Except` -/

/-- Whether an `Except` computation raised. -/
def isErr {ε α : Type} : Except ε α → Bool
  | .error _ => true
  | .ok _ => false

/-- A fold over `Except` mirroring a Python for-loop whose body may raise:
the first raise aborts the whole loop. -/
def foldlE {α β : Type} (f : β → α → Except String β) : β → List α → Except String β
  | b, [] => Except.ok b
  | b, a :: t =>
    match f b a with
    | Except.error e => Except.error e
    | Except.ok b2 => foldlE f b2 t

/-- Truthiness of an optional Python list: `None` and `[]` are falsy. -/
def truthyList {α : Type} : Option (List α) → Bool
  | none => false
  | some l => !l.isEmpty

/-- Concatenation of the images of a list (our own flat-map, kept structural
for kernel evaluation). -/
def listJoinMap {α β : Type} (f : α → List β) : List α → List β
  | [] => []
  | a :: t => f a ++ listJoinMap f t

/-! ## Pass 2: feature serialization (`create_feature` and inner functions) -/

/-- Sentinel for "no semantic object": the maximum representable unsigned
32-bit value (line 132 of `cjseq2cb.py`). -/
def uint32max : Nat := 4294967295

/-- `builder.PrependUint32` stores a 32-bit word. -/
def u32 (n : Nat) : Nat := n % 4294967296

/-- The value a semantic-index entry is serialized with (lines 130-134):
None becomes the uint32 sentinel, anything else its own value. -/
def semanticEntryVal : Option Nat → Nat
  | none => uint32max
  | some v => u32 v

/-- One semantic object record (lines 69-74): the surface's attributes are
encoded with the "type" key excluded, then the type member is looked up from
the surface's "type" key (raising if that key is missing or not a string). -/
def buildSemanticObject (enc : Option AttributeSchemaEncoder)
    (surface : List (String × AttrVal)) : Except String SemanticObjectTable :=
  match enc with
  | none => Except.error "AttributeError: NoneType object has no attribute encode_values"
  | some e =>
    match e.encode_values surface ["type"] with
    | Except.error err => Except.error err
    | Except.ok attrs =>
      match lookupStr surface "type" with
      | none => Except.error "KeyError: type"
      | some (AttrVal.strV t) =>
        Except.ok { stype := SemanticSurfaceTypeOf t, attributes := attrs }
      | some _ => Except.error "TypeError: attribute name must be string"

/-- One iteration of the loop over `semantics["surfaces"]`. -/
def semObjFoldStep (enc : Option AttributeSchemaEncoder)
    (acc : List SemanticObjectTable) (surface : List (String × AttrVal)) :
    Except String (List SemanticObjectTable) :=
  match buildSemanticObject enc surface with
  | Except.error e => Except.error e
  | Except.ok o => Except.ok (acc ++ [o])

/-- The loop over `semantics["surfaces"]` (lines 69-74), appending one
semantic object per surface in source order. -/
def buildSemanticObjects (enc : Option AttributeSchemaEncoder)
    (ss : List (List (String × AttrVal))) : Except String (List SemanticObjectTable) :=
  foldlE (semObjFoldStep enc) [] ss

/-- Lines 62-84: the semantics block handling of `create_geometry`.  When a
semantics block is declared, both "surfaces" and "values" must be present,
otherwise the conversion raises; when both are present the semantic objects
vector and the raw values list are produced. -/
def semanticsPart (enc : Option AttributeSchemaEncoder) (geom : CJGeometry) :
    Except String (Option (List SemanticObjectTable × List (Option Nat))) :=
  match geom.semantics with
  | none => Except.ok none
  | some s =>
    match s.surfaces, s.values with
    | some ss, some vals =>
      match buildSemanticObjects enc ss with
      | Except.error e => Except.error e
      | Except.ok objs => Except.ok (some (buildVector objs, vals))
    | _, _ => Except.error "Semantics must have surfaces and values"

/-- Lines 86-155: geometry flattening and table assembly.  Each of the four
run-length vectors is created and added only when non-empty (lines 104-126
and 142-149); the semantics vectors are added only when `semantic_values` is
truthy (lines 92 and 152-154; note that when it is truthy,
`gd.semantic_values` equals that non-empty list, so `f_semantics` is bound). -/
def assembleGeometryTable (geom : CJGeometry)
    (semPart : Option (List SemanticObjectTable × List (Option Nat))) :
    GeometryTable :=
  let semantic_values : Option (List (Option Nat)) := semPart.map Prod.snd
  let gd0 := GeometryEncoder.empty.encode geom.boundaries
  let gd := if truthyList semantic_values then
      gd0.encode_semantics ((semPart.map Prod.snd).getD []) else gd0
  { gtype := GeometryTypeOf geom.gtype
    lod := geom.lod
    boundaries := buildVector (gd.indices.map u32)
    solids := if gd.solids.isEmpty then none else some (buildVector (gd.solids.map u32))
    shells := if gd.shells.isEmpty then none else some (buildVector (gd.shells.map u32))
    surfaces := if gd.surfaces.isEmpty then none else some (buildVector (gd.surfaces.map u32))
    strings := if gd.strings.isEmpty then none else some (buildVector (gd.strings.map u32))
    semanticsObjects := if truthyList semantic_values then semPart.map Prod.fst else none
    semantics := if truthyList semantic_values then
        some (buildVector (gd.semantic_values.map semanticEntryVal)) else none }

/-- `create_geometry` (lines 59-155). -/
def create_geometry (enc : Option AttributeSchemaEncoder) (geom : CJGeometry) :
    Except String GeometryTable :=
  match semanticsPart enc geom with
  | Except.error e => Except.error e
  | Except.ok semPart => Except.ok (assembleGeometryTable geom semPart)

/-- Lines 166-172: `f_attributes_offset` is assigned only when the object has
attributes AND a (truthy) schema encoder was passed. -/
def attrOffsetStep (enc : Option AttributeSchemaEncoder) (o : CJObject) :
    Except String (Option (List (Nat × Option AttrVal))) :=
  match o.attributes, enc with
  | some m, some e =>
    match e.encode_values m [] with
    | Except.error err => Except.error err
    | Except.ok b => Except.ok (some b)
  | _, _ => Except.ok none

/-- One iteration of the geometry loop (lines 201-204): a GeometryInstance
raises, any other geometry is serialized and appended. -/
def geomFoldStep (enc : Option AttributeSchemaEncoder)
    (acc : List GeometryTable) (g : CJGeometry) : Except String (List GeometryTable) :=
  if g.gtype = "GeometryInstance" then
    Except.error "GeometryInstance is not supported at the moment"
  else
    match create_geometry enc g with
    | Except.error e => Except.error e
    | Except.ok t => Except.ok (acc ++ [t])

/-- Lines 197-211: the geometry list; a GeometryInstance raises, every other
geometry is serialized in order. -/
def geometryStep (enc : Option AttributeSchemaEncoder) (o : CJObject) :
    Except String (Option (List GeometryTable)) :=
  match o.geometry with
  | none => Except.ok none
  | some gs =>
    match foldlE (geomFoldStep enc) [] gs with
    | Except.error e => Except.error e
    | Except.ok ts => Except.ok (some (buildVector ts))

/-- Lines 219-221: `CityObject.AddAttributes` runs whenever the object has
attributes; if `f_attributes_offset` was never assigned (no schema encoder),
Python raises an unbound-local error. -/
def attrsFieldStep (o : CJObject) (off : Option (List (Nat × Option AttrVal))) :
    Except String (Option (List (Nat × Option AttrVal))) :=
  match o.attributes with
  | none => Except.ok none
  | some _ =>
    match off with
    | some b => Except.ok (some b)
    | none =>
      Except.error
        "UnboundLocalError: local variable f_attributes_offset referenced before assignment"

/-- `create_object` (lines 57-243), in source evaluation order: attribute
buffer, parent and child vectors, geometries, then table assembly. -/
def create_object (enc : Option AttributeSchemaEncoder) (cj_id : String)
    (o : CJObject) : Except String CityObjectTable :=
  match attrOffsetStep enc o with
  | Except.error e => Except.error e
  | Except.ok f_attributes_offset =>
    let f_parents := o.parents.map buildVector
    let f_children := o.children.map buildVector
    match geometryStep enc o with
    | Except.error e => Except.error e
    | Except.ok f_geometry =>
      match attrsFieldStep o f_attributes_offset with
      | Except.error e => Except.error e
      | Except.ok attrsField =>
        Except.ok
          { otype := CityObjectTypeOf o.otype
            id := cj_id
            attributes := attrsField
            geometry := f_geometry
            children := f_children
            parents := f_parents
            geographicalExtent := o.geographicalExtent }

/-- One iteration of the object loop (lines 259-261). -/
def objFoldStep (enc : Option AttributeSchemaEncoder)
    (acc : List CityObjectTable) (p : String × CJObject) :
    Except String (List CityObjectTable) :=
  match create_object enc p.1 p.2 with
  | Except.error e => Except.error e
  | Except.ok t => Except.ok (acc ++ [t])

/-- `create_feature` (lines 56-277): vertex vector, then one object table per
entry of the `CityObjects` mapping, in order. -/
def create_feature (cj_feature : CJFeature)
    (schema_encoder : Option AttributeSchemaEncoder) :
    Except String CityFeatureTable :=
  let f_vertices := buildVector cj_feature.vertices
  match foldlE (objFoldStep schema_encoder) [] cj_feature.cityObjects with
  | Except.error e => Except.error e
  | Except.ok f_objects =>
    Except.ok { id := cj_feature.id, vertices := f_vertices
                objects := buildVector f_objects }

/-! ## Pass 1: schema inference and extent scan (`convert_cjseq2cb`) -/

/-- Lines 370-374: scanning one geometry during pass 1; accessing
`geom["semantics"]["surfaces"]` raises a KeyError when the semantics block
has no "surfaces" key; every surface's attributes are observed with the
type/parent/children keys excluded. -/
def pass1GeomStep (e : AttributeSchemaEncoder) (g : CJGeometry) :
    Except String AttributeSchemaEncoder :=
  match g.semantics with
  | none => Except.ok e
  | some s =>
    match s.surfaces with
    | none => Except.error "KeyError: surfaces"
    | some ss =>
      Except.ok (ss.foldl (fun a srf => a.add srf ["type", "parent", "children"]) e)

/-- Lines 367-374: scanning one city object during pass 1: its attribute map
is observed with no exclusions, then each of its geometries is scanned. -/
def pass1Object (e : AttributeSchemaEncoder) (o : CJObject) :
    Except String AttributeSchemaEncoder :=
  let e1 := match o.attributes with
    | some m => e.add m []
    | none => e
  match o.geometry with
  | none => Except.ok e1
  | some gs => foldlE pass1GeomStep e1 gs

def pass1Feature (e : AttributeSchemaEncoder) (f : CJFeature) :
    Except String AttributeSchemaEncoder :=
  foldlE (fun acc p => pass1Object acc p.2) e f.cityObjects

/-- The whole schema-inference side of the scan loop (lines 344-374): the
encoder is seeded from the CLI overrides, then observes the whole dataset. -/
def pass1Schema (pretyped : List (String × PyType)) (write_nulls : Bool)
    (ds : Dataset) : Except String AttributeSchemaEncoder :=
  foldlE pass1Feature (AttributeSchemaEncoder.init pretyped write_nulls) ds.features

/-- Lines 357-365: folding every object's declared extent into the running
global extent (objects without one do not contribute). -/
def foldObjectExtents (init : Extent) (features : List CJFeature) : Extent :=
  features.foldl (fun ext f =>
    f.cityObjects.foldl (fun ext2 p =>
      match p.2.geographicalExtent with
      | some oe => (vecMin ext2.1 oe.1, vecMax ext2.2 oe.2)
      | none => ext2) ext) init

/-- Lines 347-365: the global extent.  `global_extent` is allocated as an
uninitialized numpy array (line 347); the `uninit` parameter stands for its
arbitrary initial contents.  It is overwritten by the declared dataset extent
when one exists, seeded to the infinities when a `metadata` mapping exists
without a declared extent, and NOT written at all when the `metadata` mapping
is absent; per-object folding runs exactly when no dataset extent was
declared. -/
def computeGlobalExtent (uninit : Extent) (md : CJMetadata)
    (features : List CJFeature) : Extent :=
  match md.metadata with
  | some mb =>
    match mb.geographicalExtent with
    | some ge => ge
    | none => foldObjectExtents infSeed features
  | none => foldObjectExtents uninit features

/-! ## Header construction (`create_header`, lines 279-332) -/

/-- Split a character list at every occurrence of the separator (Python
`str.split` with a one-character separator). -/
def splitOnChar (c : Char) : List Char → List (List Char)
  | [] => [[]]
  | a :: rest =>
    let r := splitOnChar c rest
    if a = c then [] :: r
    else
      match r with
      | h :: t => (a :: h) :: t
      | [] => [[a]]

/-- Digits of a character list interpreted in base 10, if all are digits. -/
def digitsToNat : List Char → Option Nat
  | [] => none
  | l => l.foldl (fun acc c =>
      match acc with
      | none => none
      | some n => if c.isDigit then some (n * 10 + (c.toNat - 48)) else none)
      (some 0)

/-- Python `int(str)` restricted to an optional sign followed by digits. -/
def parsePyInt (s : List Char) : Option Int :=
  match s with
  | '-' :: rest => (digitsToNat rest).map (fun n => -(n : Int))
  | '+' :: rest => (digitsToNat rest).map (fun n => (n : Int))
  | _ => (digitsToNat s).map (fun n => (n : Int))

/-- The last-three segments of a reference-system identifier,
`cj_crs.split('/')[-3:]` of line 292. -/
def crsSegments (rs : String) : List (List Char) :=
  let segs := splitOnChar '/' rs.toList
  segs.drop (segs.length - 3)

/-- Lines 288-300: the optional CRS record: authority, version and code from
the last three '/'-delimited segments, version and code parsed as integers;
unpacking fewer than three segments or a non-integer raises. -/
def crsStep (cj_metadata : CJMetadata) : Except String (Option ReferenceSystemTable) :=
  match cj_metadata.metadata with
  | none => Except.ok none
  | some mb =>
    match mb.referenceSystem with
    | none => Except.ok none
    | some rs =>
      match crsSegments rs with
      | [a, v, c] =>
        match parsePyInt v, parsePyInt c with
        | some vi, some ci =>
          Except.ok (some { authority := String.mk a, version := vi, code := ci })
        | _, _ => Except.error "ValueError: invalid literal for int"
      | _ => Except.error "ValueError: not enough values to unpack"

/-- `create_header` (lines 279-332).  The second component of the result is
the list of warnings logged: when no CRS record was produced a warning is
logged and the header simply omits the record (lines 321-324). -/
def create_header (cj_metadata : CJMetadata) (geographical_extent : Extent)
    (features_count : Nat) (schema_encoder : AttributeSchemaEncoder) :
    Except String (HeaderTable × List String) :=
  match cj_metadata.transform with
  | none => Except.error "KeyError: transform"
  | some tr =>
    match crsStep cj_metadata with
    | Except.error e => Except.error e
    | Except.ok crs_offset =>
      Except.ok
        ({ features_count := features_count
           transform := tr
           reference_system := crs_offset
           columns := buildVector schema_encoder.schema
           geographical_extent := geographical_extent },
         if crs_offset.isNone then ["No CRS found in input metadata"] else [])

/-! ## The whole conversion (`convert_cjseq2cb`, lines 334-393) -/

structure ConvertResult where
  header : HeaderTable
  features : List CityFeatureTable
  warnings : List String
deriving DecidableEq

/-- One iteration of the pass-2 feature loop (lines 380-382). -/
def featFoldStep (schema_encoder : AttributeSchemaEncoder)
    (acc : List CityFeatureTable) (f : CJFeature) :
    Except String (List CityFeatureTable) :=
  match create_feature f (some schema_encoder) with
  | Except.error e => Except.error e
  | Except.ok t => Except.ok (acc ++ [t])

/-- `convert_cjseq2cb` up to (but not including) the byte framing: pass 1
(schema inference and extent scan), pass 2 (one feature table per input
feature, in input order), then the header. -/
def convert_cjseq2cb (pretyped : List (String × PyType)) (write_nulls : Bool)
    (uninit : Extent) (ds : Dataset) : Except String ConvertResult :=
  let global_extent := computeGlobalExtent uninit ds.meta ds.features
  match pass1Schema pretyped write_nulls ds with
  | Except.error e => Except.error e
  | Except.ok schema_encoder =>
    match foldlE (featFoldStep schema_encoder) [] ds.features with
    | Except.error e => Except.error e
    | Except.ok fb_features =>
      match create_header ds.meta global_extent fb_features.length schema_encoder with
      | Except.error e => Except.error e
      | Except.ok (hdr, warns) =>
        Except.ok { header := hdr, features := fb_features, warnings := warns }

/-! ## Byte framing (lines 44-51 and 384-393) -/

/-- Python `v.to_bytes(n, byteorder='little', signed=False)`: the `n`
little-endian bytes of `v`, raising OverflowError when `v` does not fit. -/
def int_to_bytes_le (v : Nat) (n : Nat) : Option (List Nat) :=
  if v < 2 ^ (8 * n) then some ((List.range n).map (fun i => v / 2 ^ (8 * i) % 256))
  else none

/-- `create_magic_bytes` (lines 44-51): the ASCII tag "FCB", one byte of
major version, the tag again, one byte of minor version. -/
def create_magic_bytes (major minor : Nat) : Option (List Nat) :=
  match int_to_bytes_le major 1, int_to_bytes_le minor 1 with
  | some ma, some mi => some ([70, 67, 66] ++ ma ++ [70, 67, 66] ++ mi)
  | _, _ => none

/-- Lines 384-393: the output byte stream written to the file, over the
already-serialized header buffer and feature buffers (the flatbuffers byte
output itself is the external builder's).  The magic is written with
major 0, minor 4 (line 387); the header and each feature, in input order,
are length-prefixed with 4 little-endian bytes. -/
def write_output (header_buf : List Nat) (feature_bufs : List (List Nat)) :
    Option (List Nat) :=
  match create_magic_bytes 0 4 with
  | none => none
  | some magic =>
    match int_to_bytes_le header_buf.length 4 with
    | none => none
    | some hlen =>
      match feature_bufs.foldlM (fun acc b =>
          match int_to_bytes_le b.length 4 with
          | none => none
          | some l => some (acc ++ l ++ b)) ([] : List Nat) with
      | none => none
      | some frames => some (magic ++ hlen ++ header_buf ++ frames)

/-! ## CLI schema override parsing (lines 403-415) -/

/-- The `type_map` of line 405: the accepted type tokens of `--schema`. -/
def type_map : List (String × PyType) :=
  [("str", PyType.pyStr), ("int", PyType.pyInt), ("float", PyType.pyFloat),
   ("bool", PyType.pyBool), ("json", PyType.pyDict)]

/-- Python dict assignment `d[name] = t`: replace the existing binding or
append a new one. -/
def dictInsert {α : Type} : List (String × α) → String → α → List (String × α)
  | [], k, v => [(k, v)]
  | kv :: rest, k, v =>
    if kv.1 = k then (k, v) :: rest else kv :: dictInsert rest k v

/-- One iteration of the loop of lines 413-415: one comma-separated pair is
split at ':' into exactly a name and a type token (a ValueError otherwise);
the token is looked up in `type_map` (a KeyError when absent). -/
def schemaPairStep (acc : List (String × PyType)) (pair : List Char) :
    Except String (List (String × PyType)) :=
  match splitOnChar ':' pair with
  | [n, t] =>
    match lookupStr type_map (String.mk t) with
    | some pt => Except.ok (dictInsert acc (String.mk n) pt)
    | none => Except.error ("KeyError: " ++ String.mk t)
  | _ => Except.error "ValueError: not enough values to unpack"

/-- Lines 413-415: the whole --schema argument, one pair per comma-separated
chunk. -/
def parseSchemaArg (s : String) : Except String (List (String × PyType)) :=
  foldlE schemaPairStep [] (splitOnChar ',' s.toList)

/-- The characters of one name:type pair as the user writes it. -/
def pairChars (p : String × String) : List Char :=
  p.1.toList ++ ':' :: p.2.toList

/-- The characters of a whole --schema argument: the pairs joined with
commas. -/
def joinChars : List (String × String) → List Char
  | [] => []
  | [p] => pairChars p
  | p :: q :: rest => pairChars p ++ ',' :: joinChars (q :: rest)

/-- The Python type a token maps to (total; meaningful on accepted tokens). -/
def tokPyType (t : String) : PyType :=
  (lookupStr type_map t).getD PyType.pyStr

/-! ## Key sets of the two passes (for the schema-drift invariant) -/

/-- The keys of one semantic surface record that pass 2 presents to the
attribute encoder: all of the record's keys except "type" (line 70). -/
def presentedKeysSurface (surface : List (String × AttrVal)) : List String :=
  (surface.map Prod.fst).filter (fun k => k ≠ "type")

/-- The keys pass 2 presents to the attribute encoder for one geometry:
nothing unless a semantics block with both "surfaces" and "values" is
present, in which case every surface's keys minus "type" (lines 68-70). -/
def presentedKeysGeometry (g : CJGeometry) : List String :=
  match g.semantics with
  | some s =>
    match s.surfaces, s.values with
    | some ss, some _ => listJoinMap presentedKeysSurface ss
    | _, _ => []
  | none => []

/-- The keys pass 2 presents to the attribute encoder for one city object:
its full attribute map (line 170, no exclusions) plus its geometries'
semantic-surface keys. -/
def presentedKeysObject (o : CJObject) : List String :=
  (match o.attributes with
   | some m => m.map Prod.fst
   | none => []) ++
  (match o.geometry with
   | some gs => listJoinMap presentedKeysGeometry gs
   | none => [])

/-- Every key the encoding pass presents to the attribute encoder, across the
whole dataset. -/
def presentedKeys (ds : Dataset) : List String :=
  listJoinMap (fun f => listJoinMap (fun p => presentedKeysObject p.2) f.cityObjects)
    ds.features

/-- All semantic-surface attribute records of one object that pass 1 scans
(every surface of every semantics block that has a "surfaces" key). -/
def objectSurfaceMaps (o : CJObject) : List (List (String × AttrVal)) :=
  match o.geometry with
  | some gs =>
    listJoinMap (fun g =>
      match g.semantics with
      | some s => s.surfaces.getD []
      | none => []) gs
  | none => []

/-- All semantic-surface attribute records of the dataset. -/
def datasetSurfaceMaps (ds : Dataset) : List (List (String × AttrVal)) :=
  listJoinMap (fun f => listJoinMap (fun p => objectSurfaceMaps p.2) f.cityObjects)
    ds.features

/-- All attribute entries of one object: its own attribute map plus its
semantic surfaces' records. -/
def objectAttrEntries (o : CJObject) : List (String × AttrVal) :=
  (o.attributes.getD []) ++ listJoinMap id (objectSurfaceMaps o)

/-- All attribute entries of the dataset. -/
def datasetAttrEntries (ds : Dataset) : List (String × AttrVal) :=
  listJoinMap (fun f => listJoinMap (fun p => objectAttrEntries p.2) f.cityObjects)
    ds.features

/-! ## Helper lemmas -/

theorem foldl_cons_rev {α : Type} (l acc : List α) :
    l.foldl (fun acc x => x :: acc) acc = l.reverse ++ acc := by
  induction l generalizing acc with
  | nil => simp
  | cons a t ih => simp [List.foldl_cons, ih]

/-- The reverse-prepend builder convention yields the source order. -/
theorem buildVector_eq {α : Type} (xs : List α) : buildVector xs = xs := by
  simp [buildVector, foldl_cons_rev]

theorem mem_listJoinMap {α β : Type} {f : α → List β} {b : β} :
    ∀ {l : List α}, b ∈ listJoinMap f l ↔ ∃ a, a ∈ l ∧ b ∈ f a := by
  intro l
  induction l with
  | nil => simp [listJoinMap]
  | cons a t ih =>
    simp only [listJoinMap, List.mem_append, ih, List.mem_cons]
    constructor
    · rintro (h | ⟨x, hx, hb⟩)
      · exact ⟨a, Or.inl rfl, h⟩
      · exact ⟨x, Or.inr hx, hb⟩
    · rintro ⟨x, hx | hx, hb⟩
      · subst hx; exact Or.inl hb
      · exact Or.inr ⟨x, hx, hb⟩

theorem foldlE_isErr_of_mem {α β : Type} (f : β → α → Except String β) (x : α)
    (hf : ∀ b, isErr (f b x) = true) :
    ∀ (l : List α), x ∈ l → ∀ b, isErr (foldlE f b l) = true := by
  intro l
  induction l with
  | nil => intro h; exact absurd h (List.not_mem_nil x)
  | cons a t ih =>
    intro hx b
    rcases List.mem_cons.mp hx with h | h
    · subst h
      have hb := hf b
      cases hfb : f b x with
      | error e => simp [foldlE, hfb, isErr]
      | ok b2 => rw [hfb] at hb; simp [isErr] at hb
    · cases hfb : f b a with
      | error e => simp [foldlE, hfb, isErr]
      | ok b2 =>
        simp only [foldlE, hfb]
        exact ih h b2

theorem foldlE_preserve {α β : Type} (f : β → α → Except String β) (P : β → Prop)
    (hstep : ∀ b a b2, f b a = Except.ok b2 → P b → P b2) :
    ∀ (l : List α) (b b2), foldlE f b l = Except.ok b2 → P b → P b2 := by
  intro l
  induction l with
  | nil =>
    intro b b2 h hp
    simp only [foldlE] at h
    cases h
    exact hp
  | cons a t ih =>
    intro b b2 h hp
    cases hfb : f b a with
    | error e => simp only [foldlE, hfb] at h; exact absurd h (by simp)
    | ok b1 =>
      simp only [foldlE, hfb] at h
      exact ih b1 b2 h (hstep b a b1 hfb hp)

theorem foldlE_establish {α β : Type} (f : β → α → Except String β) (P : β → Prop)
    (x : α)
    (hx : ∀ b b2, f b x = Except.ok b2 → P b2)
    (hstep : ∀ b a b2, f b a = Except.ok b2 → P b → P b2) :
    ∀ (l : List α), x ∈ l → ∀ (b b2), foldlE f b l = Except.ok b2 → P b2 := by
  intro l
  induction l with
  | nil => intro h; exact absurd h (List.not_mem_nil x)
  | cons a t ih =>
    intro hmem b b2 h
    cases hfb : f b a with
    | error e => simp only [foldlE, hfb] at h; exact absurd h (by simp)
    | ok b1 =>
      simp only [foldlE, hfb] at h
      rcases List.mem_cons.mp hmem with heq | hmemt
      · subst heq
        exact foldlE_preserve f P hstep t b1 b2 h (hx b b1 hfb)
      · exact ih hmemt b1 b2 h

theorem lookupStr_append {α : Type} (l1 l2 : List (String × α)) (k : String) :
    lookupStr (l1 ++ l2) k =
      match lookupStr l1 k with
      | some v => some v
      | none => lookupStr l2 k := by
  induction l1 with
  | nil => simp [lookupStr]
  | cons kv t ih =>
    by_cases h : kv.1 = k <;> simp [lookupStr, h, ih]

theorem lookupStr_addEntry_preserve (sch : List (String × ColType))
    (ex : List String) (kv : String × AttrVal) (k : String) (t : ColType)
    (h : lookupStr sch k = some t) :
    lookupStr (AttributeSchemaEncoder.addEntry sch ex kv) k = some t := by
  by_cases h1 : kv.1 ∈ ex
  · simpa [AttributeSchemaEncoder.addEntry, h1] using h
  · by_cases h2 : (lookupStr sch kv.1).isSome
    · simpa [AttributeSchemaEncoder.addEntry, h1, h2] using h
    · cases hic : inferColType kv.2 with
      | none => simpa [AttributeSchemaEncoder.addEntry, h1, h2, hic] using h
      | some t2 =>
        simp [AttributeSchemaEncoder.addEntry, h1, h2, hic, lookupStr_append, h]

theorem lookupStr_addFold_preserve (ex : List String)
    (m : List (String × AttrVal)) :
    ∀ (sch : List (String × ColType)) (k : String) (t : ColType),
    lookupStr sch k = some t →
    lookupStr (m.foldl (fun s kv => AttributeSchemaEncoder.addEntry s ex kv) sch) k
      = some t := by
  induction m with
  | nil => intro sch k t h; simpa using h
  | cons kv mt ih =>
    intro sch k t h
    simp only [List.foldl_cons]
    exact ih _ _ _ (lookupStr_addEntry_preserve sch ex kv k t h)

theorem inferColType_isSome (v : AttrVal) (hv : v ≠ AttrVal.nullV) :
    (inferColType v).isSome = true := by
  cases v <;> simp [inferColType] at hv ⊢

theorem lookupStr_addFold_establish (ex : List String) (k : String) (v : AttrVal)
    (hkex : k ∉ ex) (hv : v ≠ AttrVal.nullV) :
    ∀ (m : List (String × AttrVal)) (sch : List (String × ColType)),
    (k, v) ∈ m →
    (lookupStr (m.foldl (fun s kv => AttributeSchemaEncoder.addEntry s ex kv) sch) k).isSome
      = true := by
  intro m
  induction m with
  | nil => intro sch h; exact absurd h (List.not_mem_nil _)
  | cons kv mt ih =>
    intro sch hmem
    simp only [List.foldl_cons]
    rcases List.mem_cons.mp hmem with heq | hmemt
    · rw [← heq]
      have hsome : (lookupStr (AttributeSchemaEncoder.addEntry sch ex (k, v)) k).isSome
          = true := by
        by_cases h2 : (lookupStr sch k).isSome
        · simp [AttributeSchemaEncoder.addEntry, hkex, h2]
        · obtain ⟨t, ht⟩ := Option.isSome_iff_exists.mp (inferColType_isSome v hv)
          have hnone : lookupStr sch k = none := by
            cases hl : lookupStr sch k
            · rfl
            · rw [hl] at h2; simp at h2
          simp [AttributeSchemaEncoder.addEntry, hkex, h2, ht, lookupStr_append, hnone,
            lookupStr]
      obtain ⟨t, ht⟩ := Option.isSome_iff_exists.mp hsome
      rw [lookupStr_addFold_preserve ex mt _ k t ht]
      rfl
    · exact ih _ hmemt

theorem add_preserve_isSome (e : AttributeSchemaEncoder)
    (m : List (String × AttrVal)) (ex : List String) (k : String)
    (h : (lookupStr e.schema k).isSome = true) :
    (lookupStr ((e.add m ex)).schema k).isSome = true := by
  obtain ⟨t, ht⟩ := Option.isSome_iff_exists.mp h
  rw [AttributeSchemaEncoder.add]
  rw [lookupStr_addFold_preserve ex m e.schema k t ht]
  rfl

theorem add_establish (e : AttributeSchemaEncoder) (m : List (String × AttrVal))
    (ex : List String) (k : String) (v : AttrVal)
    (hmem : (k, v) ∈ m) (hkex : k ∉ ex) (hv : v ≠ AttrVal.nullV) :
    (lookupStr ((e.add m ex)).schema k).isSome = true := by
  rw [AttributeSchemaEncoder.add]
  exact lookupStr_addFold_establish ex k v hkex hv m e.schema hmem

/-! ## Claim C3: container byte layout -/

/-- The four little-endian bytes of an unsigned 32-bit length. -/
def le4 (n : Nat) : List Nat :=
  [n % 256, n / 256 % 256, n / 65536 % 256, n / 16777216 % 256]

/-- One length-prefixed frame per feature buffer, in input order. -/
def featureFrames (bufs : List (List Nat)) : List Nat :=
  listJoinMap (fun b => le4 b.length ++ b) bufs

theorem int_to_bytes_le_four (n : Nat) (h : n < 4294967296) :
    int_to_bytes_le n 4 = some (le4 n) := by
  have h2 : n < 2 ^ (8 * 4) := by norm_num; exact h
  simp only [int_to_bytes_le, if_pos h2, le4]
  norm_num [List.range_succ]

theorem frames_fold (bufs : List (List Nat)) :
    (∀ b ∈ bufs, b.length < 4294967296) → ∀ acc : List Nat,
    bufs.foldlM (fun acc b =>
        match int_to_bytes_le b.length 4 with
        | none => none
        | some l => some (acc ++ l ++ b)) acc
      = some (acc ++ featureFrames bufs) := by
  induction bufs with
  | nil => intro _ acc; simp [featureFrames, listJoinMap]
  | cons b t ih =>
    intro h acc
    have hb : b.length < 4294967296 := h b (List.mem_cons_self b t)
    have ht : ∀ x ∈ t, x.length < 4294967296 := fun x hx => h x (List.mem_cons_of_mem b hx)
    simp only [List.foldlM_cons, int_to_bytes_le_four b.length hb]
    show List.foldlM (fun acc b =>
        match int_to_bytes_le b.length 4 with
        | none => none
        | some l => some (acc ++ l ++ b)) (acc ++ le4 b.length ++ b) t =
      some (acc ++ featureFrames (b :: t))
    rw [ih ht (acc ++ le4 b.length ++ b)]
    simp [featureFrames, listJoinMap, List.append_assoc]

/-- C3: the output byte stream is exactly the 8-byte magic prefix (the 3-byte
ASCII tag "FCB", the 1-byte major version 0, the same tag again, the 1-byte
minor version 4), then a 4-byte little-endian length followed by the header
table bytes, then one 4-byte little-endian length-prefixed frame per input
feature buffer, in input order. -/
theorem c3_output_layout (header_buf : List Nat) (feature_bufs : List (List Nat))
    (h1 : header_buf.length < 4294967296)
    (h2 : ∀ b ∈ feature_bufs, b.length < 4294967296) :
    write_output header_buf feature_bufs =
      some ([70, 67, 66] ++ [0] ++ [70, 67, 66] ++ [4] ++
        le4 header_buf.length ++ header_buf ++ featureFrames feature_bufs) := by
  have hmagic : create_magic_bytes 0 4 = some [70, 67, 66, 0, 70, 67, 66, 4] := by decide
  simp only [write_output, hmagic, int_to_bytes_le_four header_buf.length h1,
    frames_fold feature_bufs h2 []]
  simp

/-- Witness for C3 at a concrete header buffer and two feature buffers. -/
theorem c3_output_layout_witness :
    write_output [9, 9] [[1], [2, 3]] =
      some ([70, 67, 66] ++ [0] ++ [70, 67, 66] ++ [4] ++
        le4 ([9, 9] : List Nat).length ++ [9, 9] ++ featureFrames [[1], [2, 3]]) :=
  c3_output_layout [9, 9] [[1], [2, 3]] (by decide) (by decide)

/-! ## Claim C2: global extent seeding -/

/-- A metadata line that carries a transform but no `metadata` mapping at
all, so that it declares no geographical extent. -/
def c2Meta : CJMetadata :=
  { transform := some ((1, 1, 1), (0, 0, 0)), metadata := none }

/-- An arbitrary non-infinite initial content for the uninitialized
`global_extent` array. -/
def c2Uninit : Extent :=
  ((XFloat.val 7, XFloat.val 7, XFloat.val 7),
   (XFloat.val 7, XFloat.val 7, XFloat.val 7))

/-- C2 counterexample: for an input whose metadata line has no `metadata`
mapping (hence declares no geographical extent), the extent is NOT seeded to
the infinities before folding: the seeding lines 355-356 sit under the
`"metadata" in cj_metadata` test, so the uninitialized array contents
survive, and the result differs from what folding from the infinite seed
would give. -/
theorem c2_counterexample :
    c2Meta.metadata = none ∧
    computeGlobalExtent c2Uninit c2Meta [] = c2Uninit ∧
    computeGlobalExtent c2Uninit c2Meta [] ≠ foldObjectExtents infSeed [] := by
  refine ⟨rfl, rfl, ?_⟩
  decide

/-- C2 amended: the declared dataset extent, when present, is used directly
and per-object folding is skipped; the infinite seed followed by per-object
folding happens exactly when a `metadata` mapping is present without a
declared extent; when the `metadata` mapping is absent entirely the seed is
the uninitialized array content (folding still runs). -/
theorem c2_extent_seeding (uninit : Extent) (md : CJMetadata) (fs : List CJFeature) :
    (∀ mb ge, md.metadata = some mb → mb.geographicalExtent = some ge →
      computeGlobalExtent uninit md fs = ge) ∧
    (∀ mb, md.metadata = some mb → mb.geographicalExtent = none →
      computeGlobalExtent uninit md fs = foldObjectExtents infSeed fs) ∧
    (md.metadata = none →
      computeGlobalExtent uninit md fs = foldObjectExtents uninit fs) := by
  refine ⟨?_, ?_, ?_⟩
  · intro mb ge h1 h2; simp [computeGlobalExtent, h1, h2]
  · intro mb h1 h2; simp [computeGlobalExtent, h1, h2]
  · intro h1; simp [computeGlobalExtent, h1]

/-- A metadata line whose `metadata` mapping is present but declares no
extent. -/
def c2wMeta : CJMetadata :=
  { transform := some ((1, 1, 1), (0, 0, 0))
    metadata := some { geographicalExtent := none, referenceSystem := none } }

/-- Witness for the amended C2 at concrete inputs: with a `metadata` mapping
lacking an extent, the result is the fold from the infinite seed. -/
theorem c2_extent_seeding_witness :
    computeGlobalExtent c2Uninit c2wMeta [] = foldObjectExtents infSeed [] :=
  (c2_extent_seeding c2Uninit c2wMeta []).2.1
    { geographicalExtent := none, referenceSystem := none } rfl rfl

/-! ## Claim C4: run-length arrays emitted iff non-empty -/

theorem foldlRing_surfaces (rs : List (List Nat)) :
    ∀ e, (rs.foldl GeometryEncoder.encodeRing e).surfaces = e.surfaces := by
  induction rs with
  | nil => intro e; rfl
  | cons r t ih => intro e; simp [List.foldl_cons, ih, GeometryEncoder.encodeRing]

theorem foldlRing_shells (rs : List (List Nat)) :
    ∀ e, (rs.foldl GeometryEncoder.encodeRing e).shells = e.shells := by
  induction rs with
  | nil => intro e; rfl
  | cons r t ih => intro e; simp [List.foldl_cons, ih, GeometryEncoder.encodeRing]

theorem foldlRing_solids (rs : List (List Nat)) :
    ∀ e, (rs.foldl GeometryEncoder.encodeRing e).solids = e.solids := by
  induction rs with
  | nil => intro e; rfl
  | cons r t ih => intro e; simp [List.foldl_cons, ih, GeometryEncoder.encodeRing]

theorem foldlSurface_shells (ss : List (List (List Nat))) :
    ∀ e, (ss.foldl GeometryEncoder.encodeSurface e).shells = e.shells := by
  induction ss with
  | nil => intro e; rfl
  | cons s t ih =>
    intro e
    simp [List.foldl_cons, ih, GeometryEncoder.encodeSurface, foldlRing_shells]

theorem foldlSurface_solids (ss : List (List (List Nat))) :
    ∀ e, (ss.foldl GeometryEncoder.encodeSurface e).solids = e.solids := by
  induction ss with
  | nil => intro e; rfl
  | cons s t ih =>
    intro e
    simp [List.foldl_cons, ih, GeometryEncoder.encodeSurface, foldlRing_solids]

theorem foldlShell_solids (sh : List (List (List (List Nat)))) :
    ∀ e, (sh.foldl GeometryEncoder.encodeShell e).solids = e.solids := by
  induction sh with
  | nil => intro e; rfl
  | cons s t ih =>
    intro e
    simp [List.foldl_cons, ih, GeometryEncoder.encodeShell, foldlSurface_solids]

/-- C4: each of the four level run-length vectors is present in the
serialized geometry table exactly when the flattened array for that level is
non-empty, and the levels a geometry type does not exercise yield empty
arrays, hence are omitted (never emitted as zero-length vectors). -/
theorem c4_level_arrays (enc : Option AttributeSchemaEncoder) (g : CJGeometry)
    (t : GeometryTable) (h : create_geometry enc g = Except.ok t) :
    ((t.solids.isSome ↔ (GeometryEncoder.empty.encode g.boundaries).solids ≠ []) ∧
     (t.shells.isSome ↔ (GeometryEncoder.empty.encode g.boundaries).shells ≠ []) ∧
     (t.surfaces.isSome ↔ (GeometryEncoder.empty.encode g.boundaries).surfaces ≠ []) ∧
     (t.strings.isSome ↔ (GeometryEncoder.empty.encode g.boundaries).strings ≠ [])) ∧
    (match g.boundaries with
     | CJBoundaries.multipoint _ => t.surfaces = none ∧ t.shells = none ∧ t.solids = none
     | CJBoundaries.multisurface _ => t.shells = none ∧ t.solids = none
     | CJBoundaries.solidB _ => t.solids = none
     | CJBoundaries.multisolid _ => True) := by
  unfold create_geometry at h
  cases hs : semanticsPart enc g with
  | error e => rw [hs] at h; exact absurd h (by simp)
  | ok sp =>
    rw [hs] at h
    cases h
    have hfields :
        (assembleGeometryTable g sp).solids
            = (if (GeometryEncoder.empty.encode g.boundaries).solids.isEmpty then none
               else some (buildVector ((GeometryEncoder.empty.encode g.boundaries).solids.map u32))) ∧
        (assembleGeometryTable g sp).shells
            = (if (GeometryEncoder.empty.encode g.boundaries).shells.isEmpty then none
               else some (buildVector ((GeometryEncoder.empty.encode g.boundaries).shells.map u32))) ∧
        (assembleGeometryTable g sp).surfaces
            = (if (GeometryEncoder.empty.encode g.boundaries).surfaces.isEmpty then none
               else some (buildVector ((GeometryEncoder.empty.encode g.boundaries).surfaces.map u32))) ∧
        (assembleGeometryTable g sp).strings
            = (if (GeometryEncoder.empty.encode g.boundaries).strings.isEmpty then none
               else some (buildVector ((GeometryEncoder.empty.encode g.boundaries).strings.map u32))) := by
      cases htr : truthyList ((sp.map Prod.snd : Option (List (Option Nat)))) with
      | true => simp [assembleGeometryTable, htr, GeometryEncoder.encode_semantics]
      | false => simp [assembleGeometryTable, htr]
    obtain ⟨hso, hsh, hsu, hst⟩ := hfields
    have hiff : ∀ (l : List Nat) (v : Option (List Nat)),
        v = (if l.isEmpty then none else some (buildVector (l.map u32))) →
        (v.isSome ↔ l ≠ []) := by
      intro l v hv
      cases l with
      | nil => simp [hv]
      | cons a t2 => simp [hv]
    have hnone : ∀ (l : List Nat) (v : Option (List Nat)),
        v = (if l.isEmpty then none else some (buildVector (l.map u32))) →
        l = [] → v = none := by
      intro l v hv hl
      subst hl
      simp [hv]
    refine ⟨⟨hiff _ _ hso, hiff _ _ hsh, hiff _ _ hsu, hiff _ _ hst⟩, ?_⟩
    cases hb : g.boundaries with
    | multipoint rs =>
      refine ⟨hnone _ _ hsu ?_, hnone _ _ hsh ?_, hnone _ _ hso ?_⟩ <;>
        simp [hb, GeometryEncoder.encode, foldlRing_surfaces, foldlRing_shells,
          foldlRing_solids, GeometryEncoder.empty]
    | multisurface ss =>
      refine ⟨hnone _ _ hsh ?_, hnone _ _ hso ?_⟩ <;>
        simp [hb, GeometryEncoder.encode, foldlSurface_shells, foldlSurface_solids,
          GeometryEncoder.empty]
    | solidB sh =>
      refine hnone _ _ hso ?_
      simp [hb, GeometryEncoder.encode, foldlShell_solids, GeometryEncoder.empty]
    | multisolid so => trivial

/-- A concrete MultiSurface geometry with a single triangle. -/
def c4g : CJGeometry :=
  { gtype := "MultiSurface", lod := "1"
    boundaries := CJBoundaries.multisurface [[[0, 1, 2]]], semantics := none }

/-- Its serialized table. -/
def c4t : GeometryTable :=
  { gtype := some 2, lod := "1", boundaries := [0, 1, 2]
    solids := none, shells := none, surfaces := some [1], strings := some [3]
    semanticsObjects := none, semantics := none }

/-- Witness for C4: the concrete MultiSurface omits the shell and solid
arrays and keeps the non-empty surface array. -/
theorem c4_level_arrays_witness :
    c4t.shells = none ∧ c4t.solids = none ∧
    (c4t.surfaces.isSome ↔ (GeometryEncoder.empty.encode c4g.boundaries).surfaces ≠ []) := by
  have h := c4_level_arrays none c4g c4t (by rfl)
  exact ⟨h.2.1, h.2.2, h.1.2.2.1⟩

/-! ## Claim C6: the uint32 sentinel for null semantic indices -/

/-- C6: in the serialized semantic-index vector every null source entry
becomes the maximum unsigned 32-bit value and every non-null entry its own
value (for values that fit 32 bits, as `PrependUint32` requires). -/
theorem c6_semantic_sentinel (enc : Option AttributeSchemaEncoder) (g : CJGeometry)
    (s : CJSemantics) (ss : List (List (String × AttrVal)))
    (vals : List (Option Nat)) (t : GeometryTable)
    (hsem : g.semantics = some s) (hss : s.surfaces = some ss)
    (hvals : s.values = some vals) (hne : vals ≠ [])
    (hbound : ∀ v, some v ∈ vals → v < 4294967296)
    (h : create_geometry enc g = Except.ok t) :
    t.semantics = some (vals.map (fun ov =>
      match ov with
      | none => 4294967295
      | some v => v)) := by
  unfold create_geometry at h
  cases hsp : semanticsPart enc g with
  | error e => rw [hsp] at h; exact absurd h (by simp)
  | ok sp =>
    rw [hsp] at h
    cases h
    simp only [semanticsPart, hsem, hss, hvals] at hsp
    cases hb : buildSemanticObjects enc ss with
    | error e => rw [hb] at hsp; exact absurd hsp (by simp)
    | ok objs =>
      rw [hb] at hsp
      cases hsp
      have htr : truthyList (some vals) = true := by
        cases vals with
        | nil => exact absurd rfl hne
        | cons a t2 => rfl
      have hfield : (assembleGeometryTable g (some (buildVector objs, vals))).semantics
          = some (buildVector (vals.map semanticEntryVal)) := by
        simp [assembleGeometryTable, htr, GeometryEncoder.encode_semantics]
      rw [hfield, buildVector_eq]
      congr 1
      apply List.map_congr_left
      intro ov hov
      cases ov with
      | none => rfl
      | some v =>
        have hv := hbound v hov
        simp [semanticEntryVal, u32, Nat.mod_eq_of_lt hv]

/-- A concrete geometry with two surfaces, the first assigned semantic
object 0 and the second assigned none. -/
def c6g : CJGeometry :=
  { gtype := "MultiSurface", lod := "1"
    boundaries := CJBoundaries.multisurface [[[0, 1, 2]], [[3, 4, 5]]]
    semantics := some { surfaces := some [[("type", AttrVal.strV "RoofSurface")]]
                        values := some [some 0, none] } }

/-- The serialized table of `c6g`. -/
def c6t : GeometryTable :=
  { gtype := some 2, lod := "1", boundaries := [0, 1, 2, 3, 4, 5]
    solids := none, shells := none, surfaces := some [1, 1], strings := some [3, 3]
    semanticsObjects := some [{ stype := some 0, attributes := [] }]
    semantics := some [0, 4294967295] }

/-- Witness for C6: the concrete serialized semantic-index vector is
[0, 4294967295]. -/
theorem c6_semantic_sentinel_witness : c6t.semantics = some [0, 4294967295] := by
  have h := c6_semantic_sentinel (some ⟨[], true⟩) c6g
    { surfaces := some [[("type", AttrVal.strV "RoofSurface")]], values := some [some 0, none] }
    [[("type", AttrVal.strV "RoofSurface")]] [some 0, none] c6t rfl rfl rfl
    (by simp)
    (by intro v hv; simp at hv; subst hv; norm_num) (by rfl)
  simpa using h

/-! ## Claim C9: an empty semantic values list behaves as no semantics -/

/-- C9 amended: when the semantics block carries a surfaces list and an EMPTY
values array, and every surface record encodes successfully against the
schema, the geometry table is exactly the one produced with no semantics
block at all (the empty list is falsy at lines 92 and 152, so the semantics
and semantics-objects fields are omitted). -/
theorem c9_empty_values (enc : Option AttributeSchemaEncoder) (g : CJGeometry)
    (s : CJSemantics) (ss : List (List (String × AttrVal)))
    (objs : List SemanticObjectTable)
    (hsem : g.semantics = some s) (hss : s.surfaces = some ss)
    (hvals : s.values = some [])
    (hok : buildSemanticObjects enc ss = Except.ok objs) :
    create_geometry enc g = create_geometry enc { g with semantics := none } := by
  have h1 : semanticsPart enc g
      = Except.ok (some (buildVector objs, ([] : List (Option Nat)))) := by
    simp [semanticsPart, hsem, hss, hvals, hok]
  have h2 : semanticsPart enc { g with semantics := none } = Except.ok none := by
    simp [semanticsPart]
  simp only [create_geometry, h1, h2]
  congr 1

/-- The C9 counterexample dataset: its single geometry declares semantics
with a surfaces list (whose record carries a "parent" key, excluded by
pass 1 but not by pass 2) and an empty values array. -/
def c9g : CJGeometry :=
  { gtype := "MultiSurface", lod := "1"
    boundaries := CJBoundaries.multisurface [[[0, 1, 2]]]
    semantics := some
      { surfaces := some [[("type", AttrVal.strV "RoofSurface"), ("parent", AttrVal.intV 0)]]
        values := some [] } }

def c9ds : Dataset :=
  { meta := { transform := some ((1, 1, 1), (0, 0, 0)), metadata := none }
    features := [
      { id := "f1", vertices := []
        cityObjects := [("b1",
          { otype := "Building", attributes := none
            geometry := some [c9g]
            parents := none, children := none, geographicalExtent := none })] }] }

/-- C9 is false as claimed: this geometry has a surfaces list and an empty
values array, yet the conversion DOES fail — the surface records are still
encoded against the frozen schema (line 70 runs before the falsiness of the
values list matters), and this record's "parent" key is absent from the
schema because pass 1 excluded it. -/
theorem c9_counterexample :
    c9g.semantics = some
      { surfaces := some [[("type", AttrVal.strV "RoofSurface"), ("parent", AttrVal.intV 0)]]
        values := some ([] : List (Option Nat)) } ∧
    isErr (convert_cjseq2cb [] true infSeed c9ds) = true := by
  exact ⟨rfl, by decide⟩

/-- A well-behaved geometry with an empty values array. -/
def c9wg : CJGeometry :=
  { gtype := "MultiSurface", lod := "1"
    boundaries := CJBoundaries.multisurface [[[0, 1, 2]]]
    semantics := some { surfaces := some [[("type", AttrVal.strV "RoofSurface")]]
                        values := some [] } }

/-- Witness for the amended C9 at a concrete geometry whose surface encodes
fine against the empty schema. -/
theorem c9_empty_values_witness :
    create_geometry (some ⟨[], true⟩) c9wg
      = create_geometry (some ⟨[], true⟩) { c9wg with semantics := none } :=
  c9_empty_values (some ⟨[], true⟩) c9wg
    { surfaces := some [[("type", AttrVal.strV "RoofSurface")]], values := some [] }
    [[("type", AttrVal.strV "RoofSurface")]]
    [{ stype := some 0, attributes := [] }] rfl rfl rfl (by rfl)

/-! ## Claim C7: optional CRS record -/

/-- C7: with no reference-system identifier, header construction succeeds,
the "No CRS found" warning is logged, and the header omits the CRS record;
with one, the record's authority, version and code come from the last three
'/'-delimited segments, version and code parsed as integers. -/
theorem c7_crs (md : CJMetadata) (ext : Extent) (n : Nat)
    (sch : AttributeSchemaEncoder) (tr : (ℚ × ℚ × ℚ) × (ℚ × ℚ × ℚ))
    (htr : md.transform = some tr) :
    ((md.metadata = none ∨ ∃ mb, md.metadata = some mb ∧ mb.referenceSystem = none) →
      create_header md ext n sch =
        Except.ok ({ features_count := n, transform := tr, reference_system := none,
                     columns := buildVector sch.schema, geographical_extent := ext },
                   ["No CRS found in input metadata"])) ∧
    (∀ mb rs a v c vi ci, md.metadata = some mb → mb.referenceSystem = some rs →
      crsSegments rs = [a, v, c] → parsePyInt v = some vi → parsePyInt c = some ci →
      create_header md ext n sch =
        Except.ok ({ features_count := n, transform := tr
                     reference_system := some
                       { authority := String.mk a, version := vi, code := ci }
                     columns := buildVector sch.schema, geographical_extent := ext },
                   [])) := by
  constructor
  · intro hno
    have hcrs : crsStep md = Except.ok none := by
      rcases hno with h | ⟨mb, hmb, hrs⟩
      · simp [crsStep, h]
      · simp [crsStep, hmb, hrs]
    simp [create_header, htr, hcrs]
  · intro mb rs a v c vi ci hmb hrs hseg hv hc
    have hcrs : crsStep md = Except.ok
        (some { authority := String.mk a, version := vi, code := ci }) := by
      simp [crsStep, hmb, hrs, hseg, hv, hc]
    simp [create_header, htr, hcrs]

def c7sch : AttributeSchemaEncoder := ⟨[("h", ColType.intType)], true⟩

def c7md1 : CJMetadata :=
  { transform := some ((1, 1, 1), (0, 0, 0)), metadata := none }

def c7md2 : CJMetadata :=
  { transform := some ((1, 1, 1), (0, 0, 0))
    metadata := some { geographicalExtent := none
                       referenceSystem := some "https://www.opengis.net/def/crs/EPSG/0/7415" } }

/-- Witness for C7 at concrete inputs: a metadata line without a CRS gets
the warning and no record; an EPSG identifier yields authority "EPSG",
version 0, code 7415. -/
theorem c7_crs_witness :
    create_header c7md1 infSeed 1 c7sch =
      Except.ok ({ features_count := 1, transform := ((1, 1, 1), (0, 0, 0))
                   reference_system := none
                   columns := buildVector c7sch.schema, geographical_extent := infSeed },
                 ["No CRS found in input metadata"]) ∧
    create_header c7md2 infSeed 1 c7sch =
      Except.ok ({ features_count := 1, transform := ((1, 1, 1), (0, 0, 0))
                   reference_system := some
                     { authority := String.mk ['E', 'P', 'S', 'G'], version := 0, code := 7415 }
                   columns := buildVector c7sch.schema, geographical_extent := infSeed },
                 []) := by
  constructor
  · exact (c7_crs c7md1 infSeed 1 c7sch ((1, 1, 1), (0, 0, 0)) rfl).1 (Or.inl rfl)
  · exact (c7_crs c7md2 infSeed 1 c7sch ((1, 1, 1), (0, 0, 0)) rfl).2
      { geographicalExtent := none
        referenceSystem := some "https://www.opengis.net/def/crs/EPSG/0/7415" }
      "https://www.opengis.net/def/crs/EPSG/0/7415"
      ['E', 'P', 'S', 'G'] ['0'] ['7', '4', '1', '5'] 0 7415 rfl rfl (by rfl) (by rfl) (by rfl)

/-! ## Claim C8: the accepted --schema type tokens -/

/-- C8 is false as claimed: of the claimed token set only "float" is an
accepted token; "text", "integer", "boolean" and "structured" all raise a
KeyError in the `type_map` lookup (the accepted tokens are str, int, float,
bool, json). -/
theorem c8_counterexample :
    isErr (parseSchemaArg "a:text") = true ∧
    isErr (parseSchemaArg "a:integer") = true ∧
    isErr (parseSchemaArg "a:boolean") = true ∧
    isErr (parseSchemaArg "a:structured") = true := by
  decide

theorem splitOnChar_of_not_mem (c : Char) (l : List Char) (h : c ∉ l) :
    splitOnChar c l = [l] := by
  induction l with
  | nil => rfl
  | cons a t ih =>
    have hne : ¬ a = c := fun e => h (by rw [e]; exact List.mem_cons_self c t)
    have hnt : c ∉ t := fun m => h (List.mem_cons_of_mem a m)
    simp [splitOnChar, hne, ih hnt]

theorem splitOnChar_append (c : Char) (l1 l2 : List Char) (h : c ∉ l1) :
    splitOnChar c (l1 ++ c :: l2) = l1 :: splitOnChar c l2 := by
  induction l1 with
  | nil => simp [splitOnChar]
  | cons a t ih =>
    have hne : ¬ a = c := fun e => h (by rw [e]; exact List.mem_cons_self c t)
    have hnt : c ∉ t := fun m => h (List.mem_cons_of_mem a m)
    simp [splitOnChar, hne, ih hnt]

theorem pairChars_split (p : String × String)
    (h1 : ':' ∉ p.1.toList) (h2 : ':' ∉ p.2.toList) :
    splitOnChar ':' (pairChars p) = [p.1.toList, p.2.toList] := by
  unfold pairChars
  rw [splitOnChar_append ':' p.1.toList p.2.toList h1,
    splitOnChar_of_not_mem ':' p.2.toList h2]

theorem joinChars_split :
    ∀ (pairs : List (String × String)),
    (∀ p ∈ pairs, ',' ∉ pairChars p) → pairs ≠ [] →
    splitOnChar ',' (joinChars pairs) = pairs.map pairChars := by
  intro pairs
  induction pairs with
  | nil => intro _ hne; exact absurd rfl hne
  | cons p rest ih =>
    intro h _
    cases rest with
    | nil =>
      simp [joinChars, splitOnChar_of_not_mem ',' _ (h p (List.mem_cons_self p []))]
    | cons q rest2 =>
      have hp := h p (List.mem_cons_self _ _)
      have hrest : ∀ x ∈ q :: rest2, ',' ∉ pairChars x :=
        fun x hx => h x (List.mem_cons_of_mem p hx)
      show splitOnChar ',' (pairChars p ++ ',' :: joinChars (q :: rest2)) = _
      rw [splitOnChar_append ',' (pairChars p) _ hp,
        ih hrest (List.cons_ne_nil q rest2)]
      rfl

/-- Every accepted type token is free of the two separator characters. -/
theorem type_map_tok_chars (tok : String)
    (h : (lookupStr type_map tok).isSome = true) :
    ':' ∉ tok.toList ∧ ',' ∉ tok.toList := by
  simp only [type_map, lookupStr] at h
  split at h
  · next heq => rw [← heq]; decide
  · split at h
    · next heq => rw [← heq]; decide
    · split at h
      · next heq => rw [← heq]; decide
      · split at h
        · next heq => rw [← heq]; decide
        · split at h
          · next heq => rw [← heq]; decide
          · simp at h

theorem lookupStr_init :
    ∀ (pre : List (String × PyType)) (wn : Bool) (name : String) (pt : PyType),
    lookupStr pre name = some pt →
    lookupStr (AttributeSchemaEncoder.init pre wn).schema name
      = some (pyToColType pt) := by
  intro pre
  induction pre with
  | nil => intro wn name pt h; simp [lookupStr] at h
  | cons kv rest ih =>
    intro wn name pt h
    by_cases hk : kv.1 = name
    · simp only [lookupStr, if_pos hk] at h
      cases h
      simp [AttributeSchemaEncoder.init, lookupStr, hk]
    · simp only [lookupStr, if_neg hk] at h
      have := ih wn name pt h
      simp only [AttributeSchemaEncoder.init, List.map_cons] at this ⊢
      simpa [lookupStr, hk] using this

theorem parse_fold_pairs :
    ∀ (pairs : List (String × String)),
    (∀ p ∈ pairs, ':' ∉ p.1.toList) →
    (∀ p ∈ pairs, (lookupStr type_map p.2).isSome = true) →
    ∀ acc, foldlE schemaPairStep acc (pairs.map pairChars) =
      Except.ok (pairs.foldl (fun a p => dictInsert a p.1 (tokPyType p.2)) acc) := by
  intro pairs
  induction pairs with
  | nil => intro _ _ acc; rfl
  | cons p rest ih =>
    intro hn ht acc
    have hn1 : ':' ∉ p.1.toList := hn p (List.mem_cons_self _ _)
    have ht1 := ht p (List.mem_cons_self _ _)
    have htc := type_map_tok_chars p.2 ht1
    have hsplit := pairChars_split p hn1 htc.1
    obtain ⟨pt, hpt⟩ := Option.isSome_iff_exists.mp ht1
    have hstep : schemaPairStep acc (pairChars p)
        = Except.ok (dictInsert acc p.1 (tokPyType p.2)) := by
      unfold schemaPairStep
      simp only [hsplit]
      rw [show String.mk p.2.toList = p.2 from rfl,
        show String.mk p.1.toList = p.1 from rfl]
      simp [tokPyType, hpt]
    simp only [List.map_cons, foldlE]
    simp only [hstep]
    rw [ih (fun x hx => hn x (List.mem_cons_of_mem p hx))
      (fun x hx => ht x (List.mem_cons_of_mem p hx)) (dictInsert acc p.1 (tokPyType p.2))]
    simp [List.foldl_cons]

/-- C8 amended: for every nonempty comma-separated list of name:type pairs
whose names are free of the ':' and ',' separator characters and whose type
tokens are among the accepted tokens str, int, float, bool, json, parsing
succeeds and seeds each attribute name with the corresponding column type
(text, integer, float, boolean, structured respectively; a repeated name is
overwritten as by Python dict assignment), and every seeded type survives
any subsequent schema observation (overriding inference). -/
theorem c8_schema_tokens (pairs : List (String × String))
    (h1 : pairs ≠ [])
    (h2 : ∀ p ∈ pairs, ':' ∉ p.1.toList ∧ ',' ∉ p.1.toList)
    (h3 : ∀ p ∈ pairs, (lookupStr type_map p.2).isSome = true) :
    parseSchemaArg (String.mk (joinChars pairs)) =
      Except.ok (pairs.foldl (fun acc p => dictInsert acc p.1 (tokPyType p.2)) []) ∧
    (∀ (name : String) (pt : PyType) (wn : Bool),
      lookupStr (pairs.foldl (fun acc p => dictInsert acc p.1 (tokPyType p.2)) []) name
        = some pt →
      ∀ (m : List (String × AttrVal)) (ex : List String),
        lookupStr ((AttributeSchemaEncoder.init
            (pairs.foldl (fun acc p => dictInsert acc p.1 (tokPyType p.2)) []) wn).add
          m ex).schema name = some (pyToColType pt)) := by
  constructor
  · have hcomma : ∀ p ∈ pairs, ',' ∉ pairChars p := by
      intro p hp
      have hn := h2 p hp
      have ht := type_map_tok_chars p.2 (h3 p hp)
      unfold pairChars
      intro hc
      rcases List.mem_append.mp hc with hc1 | hc2
      · exact hn.2 hc1
      · rcases List.mem_cons.mp hc2 with hc3 | hc4
        · exact absurd hc3 (by decide)
        · exact ht.2 hc4
    unfold parseSchemaArg
    rw [show (String.mk (joinChars pairs)).toList = joinChars pairs from rfl]
    rw [joinChars_split pairs hcomma h1]
    exact parse_fold_pairs pairs (fun p hp => (h2 p hp).1) h3 []
  · intro name pt wn hl m ex
    rw [AttributeSchemaEncoder.add]
    exact lookupStr_addFold_preserve ex m _ name _ (lookupStr_init _ wn name pt hl)

/-- Witness for the amended C8: "height:int,name:str" parses to the two
seeded columns and an observation of a conflicting string value does not
change the integer column of "height". -/
theorem c8_schema_tokens_witness :
    parseSchemaArg (String.mk (joinChars [("height", "int"), ("name", "str")])) =
      Except.ok [("height", PyType.pyInt), ("name", PyType.pyStr)] ∧
    lookupStr ((AttributeSchemaEncoder.init
        [("height", PyType.pyInt), ("name", PyType.pyStr)] true).add
        [("height", AttrVal.strV "x")] []).schema "height" = some ColType.intType := by
  have h := c8_schema_tokens [("height", "int"), ("name", "str")]
    (by decide) (by decide) (by decide)
  exact ⟨h.1, h.2 "height" PyType.pyInt true (by decide) [("height", AttrVal.strV "x")] []⟩

/-! ## Error propagation through the pipeline (for C5 and C10) -/

theorem create_object_err_of_geom (enc : Option AttributeSchemaEncoder)
    (id : String) (o : CJObject) (h : isErr (geometryStep enc o) = true) :
    isErr (create_object enc id o) = true := by
  unfold create_object
  cases hao : attrOffsetStep enc o with
  | error e => simp [isErr]
  | ok off =>
    cases hg : geometryStep enc o with
    | error e => simp [hg, isErr]
    | ok fg => rw [hg] at h; simp [isErr] at h

theorem create_feature_err_of_obj (f : CJFeature)
    (encOpt : Option AttributeSchemaEncoder) (p : String × CJObject)
    (hp : p ∈ f.cityObjects)
    (h : isErr (create_object encOpt p.1 p.2) = true) :
    isErr (create_feature f encOpt) = true := by
  have hstep : ∀ b, isErr (objFoldStep encOpt b p) = true := by
    intro b
    unfold objFoldStep
    cases hco : create_object encOpt p.1 p.2 with
    | error e => simp [isErr]
    | ok t => rw [hco] at h; simp [isErr] at h
  have herr := foldlE_isErr_of_mem (objFoldStep encOpt) p hstep f.cityObjects hp []
  unfold create_feature
  cases hfold : foldlE (objFoldStep encOpt) [] f.cityObjects with
  | error e => simp [isErr]
  | ok l => rw [hfold] at herr; simp [isErr] at herr

theorem geometryStep_err (enc : Option AttributeSchemaEncoder) (o : CJObject)
    (gs : List CJGeometry) (g : CJGeometry)
    (hgs : o.geometry = some gs) (hg : g ∈ gs)
    (h : isErr (create_geometry enc g) = true) :
    isErr (geometryStep enc o) = true := by
  have hstep : ∀ acc, isErr (geomFoldStep enc acc g) = true := by
    intro acc
    unfold geomFoldStep
    by_cases hgi : g.gtype = "GeometryInstance"
    · simp [hgi, isErr]
    · cases hc : create_geometry enc g with
      | error e => simp [hgi, isErr]
      | ok t => rw [hc] at h; simp [isErr] at h
  have herr := foldlE_isErr_of_mem (geomFoldStep enc) g hstep gs hg []
  unfold geometryStep
  simp only [hgs]
  cases hfold : foldlE (geomFoldStep enc) [] gs with
  | error e => simp [hfold, isErr]
  | ok ts => rw [hfold] at herr; simp [isErr] at herr

theorem create_geometry_sem_missing_err (enc : Option AttributeSchemaEncoder)
    (g : CJGeometry) (s : CJSemantics) (hsem : g.semantics = some s)
    (hbad : s.surfaces = none ∨ s.values = none) :
    isErr (create_geometry enc g) = true := by
  unfold create_geometry
  have hsp : semanticsPart enc g = Except.error "Semantics must have surfaces and values" := by
    cases hss : s.surfaces with
    | none => cases hsv : s.values <;> simp [semanticsPart, hsem, hss, hsv]
    | some ss =>
      cases hsv : s.values with
      | none => simp [semanticsPart, hsem, hss, hsv]
      | some vals =>
        rcases hbad with hb | hb
        · rw [hss] at hb; exact absurd hb (by simp)
        · rw [hsv] at hb; exact absurd hb (by simp)
  rw [hsp]
  rfl

/-! ## Claim C10: attributes with no schema encoder -/

theorem create_object_attrs_none_err (id : String) (o : CJObject)
    (m : List (String × AttrVal)) (ha : o.attributes = some m) :
    isErr (create_object none id o) = true := by
  have hao : attrOffsetStep none o = Except.ok none := by
    unfold attrOffsetStep
    rw [ha]
  have haf : attrsFieldStep o none =
      Except.error
        "UnboundLocalError: local variable f_attributes_offset referenced before assignment" := by
    unfold attrsFieldStep
    rw [ha]
  unfold create_object
  simp only [hao]
  cases hg : geometryStep none o with
  | error e => simp [hg, isErr]
  | ok fg => simp [hg, haf, isErr]

/-- C10: calling create_feature without a schema encoder on a feature one of
whose objects carries an attributes map fails with an uncaught error: the
attributes buffer offset is only assigned when an encoder is present
(line 166) but is consumed whenever the object has attributes (line 221). -/
theorem c10_unbound_offset (f : CJFeature) (p : String × CJObject)
    (m : List (String × AttrVal))
    (hp : p ∈ f.cityObjects) (ha : p.2.attributes = some m) :
    isErr (create_feature f none) = true :=
  create_feature_err_of_obj f none p hp (create_object_attrs_none_err p.1 p.2 m ha)

def c10obj : CJObject :=
  { otype := "Building", attributes := some [("a", AttrVal.intV 1)]
    geometry := none, parents := none, children := none, geographicalExtent := none }

def c10f : CJFeature := { id := "f", vertices := [], cityObjects := [("o1", c10obj)] }

/-- Witness for C10 at a concrete one-object feature. -/
theorem c10_unbound_offset_witness : isErr (create_feature c10f none) = true :=
  c10_unbound_offset c10f ("o1", c10obj) [("a", AttrVal.intV 1)] (by decide) rfl

/-! ## Claim C5: a declared semantics block missing surfaces or values -/

theorem pass1GeomStep_err (g : CJGeometry) (s : CJSemantics)
    (hsem : g.semantics = some s) (hss : s.surfaces = none) :
    ∀ e, isErr (pass1GeomStep e g) = true := by
  intro e
  simp [pass1GeomStep, hsem, hss, isErr]

theorem pass1Object_err (o : CJObject) (gs : List CJGeometry) (g : CJGeometry)
    (s : CJSemantics) (hgs : o.geometry = some gs) (hg : g ∈ gs)
    (hsem : g.semantics = some s) (hss : s.surfaces = none) :
    ∀ e, isErr (pass1Object e o) = true := by
  intro e
  unfold pass1Object
  rw [hgs]
  exact foldlE_isErr_of_mem pass1GeomStep g (pass1GeomStep_err g s hsem hss) gs hg _

theorem pass1Schema_err (pretyped : List (String × PyType)) (wn : Bool)
    (ds : Dataset) (f : CJFeature) (p : String × CJObject)
    (gs : List CJGeometry) (g : CJGeometry) (s : CJSemantics)
    (hf : f ∈ ds.features) (hp : p ∈ f.cityObjects)
    (hgs : p.2.geometry = some gs) (hg : g ∈ gs)
    (hsem : g.semantics = some s) (hss : s.surfaces = none) :
    isErr (pass1Schema pretyped wn ds) = true := by
  have hfeat : ∀ b, isErr (pass1Feature b f) = true := by
    intro b
    unfold pass1Feature
    exact foldlE_isErr_of_mem (fun acc q => pass1Object acc q.2) p
      (fun b2 => pass1Object_err p.2 gs g s hgs hg hsem hss b2) f.cityObjects hp b
  exact foldlE_isErr_of_mem pass1Feature f hfeat ds.features hf _

/-- C5: for every geometry declaring a semantics block from which the
surfaces list or the values array is absent, the whole conversion aborts
with a raised error (a KeyError already in the pass-1 scan when surfaces is
missing, or the "Semantics must have surfaces and values" exception in
pass 2) — never a silent skip. -/
theorem c5_semantics_hard_failure (pretyped : List (String × PyType)) (wn : Bool)
    (uninit : Extent) (ds : Dataset) (f : CJFeature) (p : String × CJObject)
    (gs : List CJGeometry) (g : CJGeometry) (s : CJSemantics)
    (hf : f ∈ ds.features) (hp : p ∈ f.cityObjects) (hgs : p.2.geometry = some gs)
    (hg : g ∈ gs) (hsem : g.semantics = some s)
    (hbad : s.surfaces = none ∨ s.values = none) :
    isErr (convert_cjseq2cb pretyped wn uninit ds) = true := by
  cases hpass : pass1Schema pretyped wn ds with
  | error e =>
    unfold convert_cjseq2cb
    rw [hpass]
    rfl
  | ok se =>
    rcases hbad with hss | hsv
    · have := pass1Schema_err pretyped wn ds f p gs g s hf hp hgs hg hsem hss
      rw [hpass] at this
      simp [isErr] at this
    · have hcg : isErr (create_geometry (some se) g) = true :=
        create_geometry_sem_missing_err (some se) g s hsem (Or.inr hsv)
      have hco : isErr (create_object (some se) p.1 p.2) = true :=
        create_object_err_of_geom (some se) p.1 p.2
          (geometryStep_err (some se) p.2 gs g hgs hg hcg)
      have hcf : isErr (create_feature f (some se)) = true :=
        create_feature_err_of_obj f (some se) p hp hco
      have hstep : ∀ b, isErr (featFoldStep se b f) = true := by
        intro b
        unfold featFoldStep
        cases hc : create_feature f (some se) with
        | error e => simp [isErr]
        | ok t => rw [hc] at hcf; simp [isErr] at hcf
      have herr := foldlE_isErr_of_mem (featFoldStep se) f hstep ds.features hf []
      unfold convert_cjseq2cb
      simp only [hpass]
      cases hfold : foldlE (featFoldStep se) [] ds.features with
      | error e => simp [hfold, isErr]
      | ok l => rw [hfold] at herr; simp [isErr] at herr

def c5sem : CJSemantics :=
  { surfaces := some [[("type", AttrVal.strV "RoofSurface")]], values := none }

def c5g : CJGeometry :=
  { gtype := "MultiSurface", lod := "1"
    boundaries := CJBoundaries.multisurface [[[0, 1, 2]]], semantics := some c5sem }

def c5obj : CJObject :=
  { otype := "Building", attributes := none, geometry := some [c5g]
    parents := none, children := none, geographicalExtent := none }

def c5feat : CJFeature := { id := "f", vertices := [], cityObjects := [("o", c5obj)] }

def c5ds : Dataset :=
  { meta := { transform := some ((1, 1, 1), (0, 0, 0)), metadata := none }
    features := [c5feat] }

/-- Witness for C5 on a concrete dataset whose only geometry declares a
semantics block without a values array. -/
theorem c5_semantics_hard_failure_witness :
    isErr (convert_cjseq2cb [] true infSeed c5ds) = true :=
  c5_semantics_hard_failure [] true infSeed c5ds c5feat ("o", c5obj) [c5g] c5g c5sem
    (by decide) (by decide) rfl (by decide) rfl (Or.inr rfl)

/-! ## Claim C1: every key presented at encoding is in the frozen schema -/

theorem foldl_add_preserve (ex : List String) (k : String)
    (ss : List (List (String × AttrVal))) :
    ∀ e : AttributeSchemaEncoder, (lookupStr e.schema k).isSome = true →
    (lookupStr ((ss.foldl (fun a srf => a.add srf ex) e)).schema k).isSome = true := by
  induction ss with
  | nil => intro e h; exact h
  | cons srf t ih =>
    intro e h
    simp only [List.foldl_cons]
    exact ih _ (add_preserve_isSome e srf ex k h)

theorem pass1GeomStep_preserve (k : String) (e : AttributeSchemaEncoder)
    (g : CJGeometry) (e2 : AttributeSchemaEncoder)
    (h : pass1GeomStep e g = Except.ok e2)
    (hp : (lookupStr e.schema k).isSome = true) :
    (lookupStr e2.schema k).isSome = true := by
  unfold pass1GeomStep at h
  cases hsem : g.semantics with
  | none => rw [hsem] at h; cases h; exact hp
  | some s =>
    simp only [hsem] at h
    cases hss : s.surfaces with
    | none => simp only [hss] at h; exact absurd h (by simp)
    | some ss =>
      simp only [hss] at h
      have he2 := Except.ok.inj h
      rw [← he2]
      exact foldl_add_preserve _ k ss e hp

theorem pass1Object_preserve (k : String) (e : AttributeSchemaEncoder)
    (o : CJObject) (e2 : AttributeSchemaEncoder)
    (h : pass1Object e o = Except.ok e2)
    (hp : (lookupStr e.schema k).isSome = true) :
    (lookupStr e2.schema k).isSome = true := by
  unfold pass1Object at h
  cases ha : o.attributes with
  | none =>
    simp only [ha] at h
    cases hg : o.geometry with
    | none =>
      simp only [hg] at h
      rw [← Except.ok.inj h]
      exact hp
    | some gs =>
      simp only [hg] at h
      exact foldlE_preserve pass1GeomStep
        (fun x => (lookupStr x.schema k).isSome = true)
        (fun b a b2 hs hpb => pass1GeomStep_preserve k b a b2 hs hpb)
        gs e e2 h hp
  | some m =>
    simp only [ha] at h
    have hp1 : (lookupStr ((e.add m []).schema) k).isSome = true :=
      add_preserve_isSome e m [] k hp
    cases hg : o.geometry with
    | none =>
      simp only [hg] at h
      rw [← Except.ok.inj h]
      exact hp1
    | some gs =>
      simp only [hg] at h
      exact foldlE_preserve pass1GeomStep
        (fun x => (lookupStr x.schema k).isSome = true)
        (fun b a b2 hs hpb => pass1GeomStep_preserve k b a b2 hs hpb)
        gs (e.add m []) e2 h hp1

theorem pass1Feature_preserve (k : String) (e : AttributeSchemaEncoder)
    (f : CJFeature) (e2 : AttributeSchemaEncoder)
    (h : pass1Feature e f = Except.ok e2)
    (hp : (lookupStr e.schema k).isSome = true) :
    (lookupStr e2.schema k).isSome = true := by
  unfold pass1Feature at h
  exact foldlE_preserve (fun acc (q : String × CJObject) => pass1Object acc q.2)
    (fun x => (lookupStr x.schema k).isSome = true)
    (fun b (a : String × CJObject) b2 hs hpb => pass1Object_preserve k b a.2 b2 hs hpb)
    f.cityObjects e e2 h hp

theorem foldl_add_establish_srf (ex : List String) (k : String) (v : AttrVal)
    (srf : List (String × AttrVal)) (hkex : k ∉ ex) (hv : v ≠ AttrVal.nullV)
    (hmem : (k, v) ∈ srf) :
    ∀ (ss : List (List (String × AttrVal))), srf ∈ ss → ∀ e : AttributeSchemaEncoder,
    (lookupStr ((ss.foldl (fun a s2 => a.add s2 ex) e)).schema k).isSome = true := by
  intro ss
  induction ss with
  | nil => intro h; exact absurd h (List.not_mem_nil _)
  | cons s2 t ih =>
    intro hss e
    rw [List.foldl_cons]
    rcases List.mem_cons.mp hss with heq | hmt
    · subst heq
      exact foldl_add_preserve ex k t _ (add_establish e srf ex k v hmem hkex hv)
    · exact ih hmt _

theorem pass1GeomStep_establish (k : String) (v : AttrVal) (g : CJGeometry)
    (s : CJSemantics) (ss : List (List (String × AttrVal)))
    (srf : List (String × AttrVal))
    (hsem : g.semantics = some s) (hss : s.surfaces = some ss)
    (hsrf : srf ∈ ss) (hmem : (k, v) ∈ srf)
    (hk1 : k ≠ "type") (hk2 : k ≠ "parent") (hk3 : k ≠ "children")
    (hv : v ≠ AttrVal.nullV) :
    ∀ e e2, pass1GeomStep e g = Except.ok e2 →
    (lookupStr e2.schema k).isSome = true := by
  intro e e2 h
  unfold pass1GeomStep at h
  simp only [hsem, hss] at h
  rw [← Except.ok.inj h]
  have hkex : k ∉ (["type", "parent", "children"] : List String) := by
    simp [hk1, hk2, hk3]
  exact foldl_add_establish_srf _ k v srf hkex hv hmem ss hsrf e

theorem pass1Object_establish (k : String) (o : CJObject)
    (hk : k ∈ presentedKeysObject o)
    (hA : ∀ srf ∈ objectSurfaceMaps o, ∀ kv ∈ srf, kv.1 ≠ "parent" ∧ kv.1 ≠ "children")
    (hB : ∀ kv ∈ objectAttrEntries o, kv.2 ≠ AttrVal.nullV) :
    ∀ e e2, pass1Object e o = Except.ok e2 →
    (lookupStr e2.schema k).isSome = true := by
  intro e e2 h
  unfold pass1Object at h
  unfold presentedKeysObject at hk
  rcases List.mem_append.mp hk with hka | hkg
  · -- the key comes from the object's own attribute map
    cases ha : o.attributes with
    | none => rw [ha] at hka; exact absurd hka (List.not_mem_nil _)
    | some m =>
      simp only [ha] at hka h
      obtain ⟨kv, hkv, hfst⟩ := List.mem_map.mp hka
      obtain ⟨k1, v1⟩ := kv
      simp only at hfst
      subst hfst
      have hvnn : v1 ≠ AttrVal.nullV := by
        apply hB (k1, v1)
        unfold objectAttrEntries
        apply List.mem_append.mpr
        left
        simp only [ha, Option.getD_some]
        exact hkv
      have hp1 : (lookupStr ((e.add m []).schema) k1).isSome = true :=
        add_establish e m [] k1 v1 hkv (List.not_mem_nil _) hvnn
      cases hg : o.geometry with
      | none =>
        simp only [hg] at h
        rw [← Except.ok.inj h]
        exact hp1
      | some gs =>
        simp only [hg] at h
        exact foldlE_preserve pass1GeomStep
          (fun x => (lookupStr x.schema k1).isSome = true)
          (fun b a b2 hs hpb => pass1GeomStep_preserve k1 b a b2 hs hpb)
          gs (e.add m []) e2 h hp1
  · -- the key comes from a semantic surface record
    cases hg : o.geometry with
    | none => rw [hg] at hkg; exact absurd hkg (List.not_mem_nil _)
    | some gs =>
      simp only [hg] at hkg h
      obtain ⟨g, hgmem, hkig⟩ := mem_listJoinMap.mp hkg
      unfold presentedKeysGeometry at hkig
      cases hsem : g.semantics with
      | none => rw [hsem] at hkig; exact absurd hkig (List.not_mem_nil _)
      | some s =>
        simp only [hsem] at hkig
        cases hss : s.surfaces with
        | none => rw [hss] at hkig; exact absurd hkig (List.not_mem_nil _)
        | some ss =>
          simp only [hss] at hkig
          cases hsv : s.values with
          | none => rw [hsv] at hkig; exact absurd hkig (List.not_mem_nil _)
          | some vv =>
            simp only [hsv] at hkig
            obtain ⟨srf, hsrf, hksrf⟩ := mem_listJoinMap.mp hkig
            unfold presentedKeysSurface at hksrf
            have hkfilter := List.mem_filter.mp hksrf
            obtain ⟨kv, hkv, hfst⟩ := List.mem_map.mp hkfilter.1
            obtain ⟨k1, v1⟩ := kv
            simp only at hfst
            subst hfst
            have hktype : k1 ≠ "type" := by simpa using hkfilter.2
            have hsrfmaps : srf ∈ objectSurfaceMaps o := by
              unfold objectSurfaceMaps
              rw [hg]
              apply mem_listJoinMap.mpr
              refine ⟨g, hgmem, ?_⟩
              simp only [hsem, hss, Option.getD_some]
              exact hsrf
            have hpc := hA srf hsrfmaps (k1, v1) hkv
            have hvnn : v1 ≠ AttrVal.nullV := by
              apply hB (k1, v1)
              unfold objectAttrEntries
              apply List.mem_append.mpr
              right
              apply mem_listJoinMap.mpr
              exact ⟨srf, hsrfmaps, hkv⟩
            exact foldlE_establish pass1GeomStep
              (fun x => (lookupStr x.schema k1).isSome = true) g
              (fun b b2 hb => pass1GeomStep_establish k1 v1 g s ss srf hsem hss
                hsrf hkv hktype hpc.1 hpc.2 hvnn b b2 hb)
              (fun b a b2 hs hpb => pass1GeomStep_preserve k1 b a b2 hs hpb)
              gs hgmem _ e2 h

/-- C1 amended: provided no semantic-surface record carries a "parent" or
"children" key (pass 1 excludes those but pass 2 presents them) and no
observed attribute value is null (null values do not establish a column),
every key the encoding pass presents to the attribute encoder is in the
frozen schema produced by the inference pass. -/
theorem c1_schema_presented_keys (pretyped : List (String × PyType)) (wn : Bool)
    (ds : Dataset) (sch : AttributeSchemaEncoder) (k : String)
    (h1 : pass1Schema pretyped wn ds = Except.ok sch)
    (h2 : ∀ srf ∈ datasetSurfaceMaps ds, ∀ kv ∈ srf, kv.1 ≠ "parent" ∧ kv.1 ≠ "children")
    (h3 : ∀ kv ∈ datasetAttrEntries ds, kv.2 ≠ AttrVal.nullV)
    (hk : k ∈ presentedKeys ds) :
    (lookupStr sch.schema k).isSome = true := by
  unfold presentedKeys at hk
  obtain ⟨f, hf, hkf⟩ := mem_listJoinMap.mp hk
  obtain ⟨p, hp, hko⟩ := mem_listJoinMap.mp hkf
  have hA : ∀ srf ∈ objectSurfaceMaps p.2, ∀ kv ∈ srf,
      kv.1 ≠ "parent" ∧ kv.1 ≠ "children" := by
    intro srf hsrf kv hkv
    apply h2 srf ?_ kv hkv
    unfold datasetSurfaceMaps
    exact mem_listJoinMap.mpr ⟨f, hf, mem_listJoinMap.mpr ⟨p, hp, hsrf⟩⟩
  have hB : ∀ kv ∈ objectAttrEntries p.2, kv.2 ≠ AttrVal.nullV := by
    intro kv hkv
    apply h3 kv
    unfold datasetAttrEntries
    exact mem_listJoinMap.mpr ⟨f, hf, mem_listJoinMap.mpr ⟨p, hp, hkv⟩⟩
  unfold pass1Schema at h1
  refine foldlE_establish pass1Feature
    (fun x => (lookupStr x.schema k).isSome = true) f ?_
    (fun b a b2 hb hpb => pass1Feature_preserve k b a b2 hb hpb)
    ds.features hf _ sch h1
  intro b b2 hb
  unfold pass1Feature at hb
  exact foldlE_establish (fun acc q => pass1Object acc q.2)
    (fun x => (lookupStr x.schema k).isSome = true) p
    (fun c c2 hc => pass1Object_establish k p.2 hko hA hB c c2 hc)
    (fun c a c2 hc hpc => pass1Object_preserve k c a.2 c2 hc hpc)
    f.cityObjects hp b b2 hb

/-- The C1 counterexample dataset: one semantic surface carrying a "parent"
key next to its "type" key, with a well-formed values array. -/
def c1ds : Dataset :=
  { meta := { transform := some ((1, 1, 1), (0, 0, 0)), metadata := none }
    features := [
      { id := "f1", vertices := []
        cityObjects := [("b1",
          { otype := "Building", attributes := none
            geometry := some [
              { gtype := "MultiSurface", lod := "1"
                boundaries := CJBoundaries.multisurface [[[0, 1, 2]]]
                semantics := some
                  { surfaces := some [[("type", AttrVal.strV "RoofSurface"),
                                       ("parent", AttrVal.intV 0)]]
                    values := some [some 0] } }]
            parents := none, children := none, geographicalExtent := none })] }] }

/-- C1 is false as stated: the key "parent" of a semantic surface is
presented to the attribute encoder by pass 2 (which excludes only "type"),
yet the frozen schema produced by pass 1 (which excludes "type", "parent"
and "children" on surfaces) does not contain it. -/
theorem c1_counterexample :
    "parent" ∈ presentedKeys c1ds ∧
    (pass1Schema [] true c1ds).toOption.map
        (fun e => (lookupStr e.schema "parent").isSome) = some false := by
  decide

/-- A dataset with one non-null object attribute and no semantics. -/
def c1wds : Dataset :=
  { meta := { transform := some ((1, 1, 1), (0, 0, 0)), metadata := none }
    features := [
      { id := "f1", vertices := []
        cityObjects := [("b1",
          { otype := "Building", attributes := some [("height", AttrVal.intV 3)]
            geometry := none, parents := none, children := none
            geographicalExtent := none })] }] }

/-- Witness for the amended C1: the presented key "height" is in the frozen
schema of the concrete dataset. -/
theorem c1_schema_presented_keys_witness :
    (lookupStr (AttributeSchemaEncoder.mk [("height", ColType.intType)] true).schema
      "height").isSome = true :=
  c1_schema_presented_keys [] true c1wds
    (AttributeSchemaEncoder.mk [("height", ColType.intType)] true) "height"
    (by rfl) (by decide) (by decide) (by decide)
